import Mathlib

/-!
Verification of the configuration engine of the pubmed_analysis_system
repository (file setup.py): the template/instance YAML merger
(compare_and_update), the sync orchestration (sync_yaml_with_template),
the provider/pointer validator (get_available_models,
check_application_model_info), and the interactive prompt loops of the
configuration navigator (get_user_choice and the prompt loops inside
update_yaml_interactively).

YAML documents loaded by yaml.safe_load are nested Python values built
from dicts with string keys, lists, and scalars (str, int, float, bool,
None).  We embed them as the mutual inductive family Yaml / YFields /
YElems below; a YFields value is the key/value sequence of a dict in
insertion order (Python dicts preserve insertion order, and assignment
to an existing key keeps its position while assignment to a fresh key
appends at the end).  Python floats are embedded as exact rationals;
the claims verified here depend only on equality with zero and with
other literals, not on IEEE rounding.
-/

mutual
inductive Yaml where
  | mapping : YFields → Yaml
  | seq : YElems → Yaml
  | s : String → Yaml
  | i : Int → Yaml
  | f : Rat → Yaml
  | b : Bool → Yaml
  | null : Yaml
deriving DecidableEq, Repr
inductive YFields where
  | nil : YFields
  | cons : String → Yaml → YFields → YFields
deriving DecidableEq, Repr
inductive YElems where
  | nil : YElems
  | cons : Yaml → YElems → YElems
deriving DecidableEq, Repr
end

/-- Python dict lookup d[k] restricted to the first matching key
(Python dicts never hold a duplicate key, so first match is the match). -/
def YFields.lookupA : YFields → String → Option Yaml
  | .nil, _ => none
  | .cons k v rest, key => if k = key then some v else rest.lookupA key

/-- Python dict assignment d[k] = v: replaces the value of an existing
key in place, otherwise appends the new key at the end. -/
def YFields.setA : YFields → String → Yaml → YFields
  | .nil, key, val => .cons key val .nil
  | .cons k v rest, key, val =>
    if k = key then .cons k val rest else .cons k v (rest.setA key val)

/-- Python `del d[k]` for a key known to be present: removes the first
binding of the key. -/
def YFields.delA : YFields → String → YFields
  | .nil, _ => .nil
  | .cons k v rest, key => if k = key then rest else .cons k v (rest.delA key)

/-- Python `k in d` for a dict. -/
def YFields.hasK : YFields → String → Bool
  | .nil, _ => false
  | .cons k _ rest, key => k == key || rest.hasK key

/-- The key list of a dict, in insertion order. -/
def YFields.keysF : YFields → List String
  | .nil => []
  | .cons k _ rest => k :: rest.keysF

/-- Number of entries of a dict (Python len). -/
def YFields.lengthF : YFields → Nat
  | .nil => 0
  | .cons _ _ rest => rest.lengthF + 1

def YFields.append : YFields → YFields → YFields
  | .nil, l => l
  | .cons k v rest, l => .cons k v (rest.append l)

def YFields.isNilB : YFields → Bool
  | .nil => true
  | .cons _ _ _ => false

def YElems.append : YElems → YElems → YElems
  | .nil, l => l
  | .cons a rest, l => .cons a (rest.append l)

instance : Append YElems := ⟨YElems.append⟩
instance : Append YFields := ⟨YFields.append⟩

def YElems.length : YElems → Nat
  | .nil => 0
  | .cons _ rest => rest.length + 1

/-- Python list slicing l[n:]. -/
def YElems.drop : Nat → YElems → YElems
  | 0, l => l
  | _ + 1, .nil => .nil
  | n + 1, .cons _ rest => YElems.drop n rest

def YElems.isNilB : YElems → Bool
  | .nil => true
  | .cons _ _ => false

/-- True when a dict has no duplicate key.  Every dict produced by
yaml.safe_load satisfies this: it is an invariant of Python dicts, not
a restriction added here. -/
def nodupKeysF : YFields → Bool
  | .nil => true
  | .cons k _ rest => !rest.hasK k && nodupKeysF rest

/-- Python == on values of which at least one side is a scalar
(str, int, float, bool, None).  Python equates bools with the ints 0/1
and ints with equal floats; a container never equals a scalar. -/
def scalarPyEq : Yaml → Yaml → Bool
  | .i a, .i c => decide (a = c)
  | .b a, .b c => decide (a = c)
  | .i a, .b c => decide (a = (if c then 1 else 0))
  | .b c, .i a => decide ((if c then (1 : Int) else 0) = a)
  | .f a, .f c => decide (a = c)
  | .i a, .f c => decide ((a : Rat) = c)
  | .f c, .i a => decide (c = (a : Rat))
  | .f a, .b c => decide (a = (if c then (1 : Rat) else 0))
  | .b c, .f a => decide ((if c then (1 : Rat) else 0) = a)
  | .s a, .s c => decide (a = c)
  | .null, .null => true
  | _, _ => false

mutual
/-- Python == on arbitrary nested values: dicts compare by equal size
plus key-wise equal values (order-insensitive), lists compare
positionally, scalars compare via scalarPyEq. -/
def pyEqY : Yaml → Yaml → Bool
  | .mapping a, .mapping c => (a.lengthF == c.lengthF) && pyEqMapSub a c
  | .seq a, .seq c => pyEqSeq a c
  | a, c => scalarPyEq a c
def pyEqMapSub : YFields → YFields → Bool
  | .nil, _ => true
  | .cons k v rest, c =>
    (match c.lookupA k with
     | some w => pyEqY v w
     | none => false) && pyEqMapSub rest c
def pyEqSeq : YElems → YElems → Bool
  | .nil, .nil => true
  | .cons a as1, .cons c cs => pyEqY a c && pyEqSeq as1 cs
  | _, _ => false
end

/-- Python truthiness bool(v): empty string/dict/list, 0, 0.0, False
and None are falsy, everything else truthy. -/
def pyTruthy : Yaml → Bool
  | .s str => !str.isEmpty
  | .i n => decide (n ≠ 0)
  | .f q => decide (q ≠ 0)
  | .b bb => bb
  | .null => false
  | .mapping m => !m.isNilB
  | .seq l => !l.isNilB

def isMappingB : Yaml → Bool
  | .mapping _ => true
  | _ => false

def isSeqB : Yaml → Bool
  | .seq _ => true
  | _ => false

/-- A scalar in the sense of compare_and_update: neither a dict nor a
list (so str, int, float, bool or None). -/
def isScalarB (y : Yaml) : Bool := !isMappingB y && !isSeqB y

/-- The filter `retained not in [None, {}, []]` of compare_and_update:
a retained value contributes to the enclosing container only when it is
neither None nor an empty dict nor an empty list.  The result is the
empty or singleton element list that the parent appends. -/
def keepRet : Option Yaml → YElems
  | none => .nil
  | some (Yaml.mapping .nil) => .nil
  | some (Yaml.seq .nil) => .nil
  | some v => .cons v .nil

/-- Same filter in the dict branch, tagged with the key under which the
retained value is recorded. -/
def keepRetF (k : String) (r : Option Yaml) : YFields :=
  match keepRet r with
  | .nil => .nil
  | .cons v _ => .cons k v .nil

mutual
/-- setup.py compare_and_update (lines 349-397): recursively reconciles
the instance document (parameter existing) with the template document,
returning the merged document and the retained user modifications
(Python returns None for an empty retained value, modelled as none).
Branches, in source order: if the template node is a dict and the
instance node is not, the instance node is replaced by a deep copy of
the template subtree with retained value {}; if both are dicts the keys
of the template are walked in order (cauMap); symmetrically for lists
(cauSeq) with tail handling for unequal lengths; otherwise the scalar
rule: a non-None instance value that differs (Python ==) from the
template value is kept and retained, else the template value is taken
and nothing is retained. -/
def compare_and_update (existing template : Yaml) : Yaml × Option Yaml :=
  match template with
  | .mapping ts =>
    match existing with
    | .mapping ex =>
      (.mapping (cauMap ex ts).1,
        if (cauMap ex ts).2.isNilB then none else some (.mapping (cauMap ex ts).2))
    | _ => (.mapping ts, some (.mapping .nil))
  | .seq ts =>
    match existing with
    | .seq ex =>
      (.seq (((cauSeq ex ts).1).append (YElems.drop ex.length ts)),
        if (((cauSeq ex ts).2).append (YElems.drop ts.length (cauSeq ex ts).1)).isNilB
        then none
        else some (.seq (((cauSeq ex ts).2).append (YElems.drop ts.length (cauSeq ex ts).1))))
    | _ => (.seq ts, some (.seq .nil))
  | t =>
    if scalarPyEq existing t || decide (existing = Yaml.null)
    then (t, none)
    else (existing, some existing)

/-- The dict loop of compare_and_update: for each template key in
order, if the instance has the key, recurse and store the merged value
back (in place, so later iterations see it); else insert a deep copy of
the template value.  Retained sub-values that are None, {} or [] are
dropped; the rest are recorded under their key in template order. -/
def cauMap (ex : YFields) (ts : YFields) : YFields × YFields :=
  match ts with
  | .nil => (ex, .nil)
  | .cons k tv rest =>
    match ex.lookupA k with
    | some v =>
      ((cauMap (ex.setA k (compare_and_update v tv).1) rest).1,
        (keepRetF k (compare_and_update v tv).2).append
          (cauMap (ex.setA k (compare_and_update v tv).1) rest).2)
    | none => cauMap (ex.setA k tv) rest

/-- The positional list loop of compare_and_update over
range(min(len(existing), len(template))); the tail of the longer
instance is passed through untouched (the tail handling for retained
values and template extension lives in compare_and_update itself). -/
def cauSeq (ex ts : YElems) : YElems × YElems :=
  match ex, ts with
  | ex, .nil => (ex, .nil)
  | .nil, .cons _ _ => (.nil, .nil)
  | .cons e ex, .cons t ts =>
    (.cons (compare_and_update e t).1 (cauSeq ex ts).1,
      (keepRet (compare_and_update e t).2).append (cauSeq ex ts).2)
end

mutual
/-- Well-formedness every yaml.safe_load result has: no dict carries a
duplicate key, at any depth. -/
def Ywf : Yaml → Bool
  | .mapping m => nodupKeysF m && YwfF m
  | .seq l => YwfE l
  | _ => true
def YwfF : YFields → Bool
  | .nil => true
  | .cons _ v rest => Ywf v && YwfF rest
def YwfE : YElems → Bool
  | .nil => true
  | .cons v rest => Ywf v && YwfE rest
end

/-! ## Structured-document store and sync_yaml_with_template -/

/-- The file system visible to setup.py, as a map from path to file
content: some (some y) is a readable file parsing to y, some none is a
file that open/yaml.safe_load raises on, an absent path is a missing
file (open raises). -/
structure FSState where
  files : List (String × Option Yaml)
deriving DecidableEq, Repr

def alistFind : List (String × Option Yaml) → String → Option (Option Yaml)
  | [], _ => none
  | (k, v) :: rest, key => if k = key then some v else alistFind rest key

def alistStore : List (String × Option Yaml) → String → Option Yaml → List (String × Option Yaml)
  | [], key, val => [(key, val)]
  | (k, v) :: rest, key, val =>
    if k = key then (k, val) :: rest else (k, v) :: alistStore rest key val

/-- setup.py load_yaml (lines 247-250): open + yaml.safe_load; a
missing or unparseable file raises, modelled as none. -/
def load_yaml (fs : FSState) (p : String) : Option Yaml :=
  match alistFind fs.files p with
  | some (some y) => some y
  | _ => none

/-- setup.py save_yaml (lines 252-254): whole-document overwrite. -/
def save_yaml (fs : FSState) (p : String) (y : Yaml) : FSState :=
  ⟨alistStore fs.files p (some y)⟩

/-- The dict comprehension of sync_yaml_with_template that removes the
top-level keys active_model and mesh_query_model for the first write. -/
def filterExcluded : YFields → YFields
  | .nil => .nil
  | .cons k v rest =>
    if k = "active_model" ∨ k = "mesh_query_model"
    then filterExcluded rest
    else .cons k v (filterExcluded rest)

/-- setup.py sync_yaml_with_template (lines 399-424): loads both
documents (any load failure raises before anything is written, leaving
the file system unchanged: result (fs, none)), runs compare_and_update,
writes the filtered merged document and then immediately overwrites it
with the full merged document, and returns the merged document plus the
retained values.  The dict comprehension over updated.items() raises
when the merged document is not a dict, again before any write. -/
def sync_yaml_with_template (fs : FSState) (template_file existing_file : String) :
    FSState × Option (Yaml × Option Yaml) :=
  match load_yaml fs template_file with
  | none => (fs, none)
  | some template =>
    match load_yaml fs existing_file with
    | none => (fs, none)
    | some existing =>
      match (compare_and_update existing template).1 with
      | .mapping ul =>
        (save_yaml (save_yaml fs existing_file (.mapping (filterExcluded ul)))
            existing_file (compare_and_update existing template).1,
          some ((compare_and_update existing template).1,
            (compare_and_update existing template).2))
      | _ => (fs, none)

/-! ## Provider/pointer validator -/

/-- Python subscript y[k] with a string key: dict lookup, KeyError on a
missing key and TypeError on a non-dict, both modelled as none. -/
def getItemY (y : Yaml) (k : String) : Option Yaml :=
  match y with
  | .mapping m => m.lookupA k
  | _ => none

/-- Python `x in l` for a list: any element == x. -/
def seqContainsPy : YElems → Yaml → Bool
  | .nil, _ => false
  | .cons w rest, v => pyEqY v w || seqContainsPy rest v

def isPrefixC : List Char → List Char → Bool
  | [], _ => true
  | _ :: _, [] => false
  | a :: as1, c :: cs => a == c && isPrefixC as1 cs

def containsSubC (needle : List Char) : List Char → Bool
  | [] => isPrefixC needle []
  | a :: t => isPrefixC needle (a :: t) || containsSubC needle t

/-- Python substring test `k in str`. -/
def strContainsPy (k str : String) : Bool := containsSubC k.data str.data

/-- Python `k in y` for a string key k: key test on dicts, membership
on lists, substring test on strings; TypeError (none) on int, float,
bool and None. -/
def keyInPy (k : String) (y : Yaml) : Option Bool :=
  match y with
  | .mapping m => some (m.hasK k)
  | .seq l => some (seqContainsPy l (.s k))
  | .s str => some (strContainsPy k str)
  | _ => none

/-- Python `x in d.values()` for a dict d: any value == x. -/
def anyValPyEq : YFields → Yaml → Bool
  | .nil, _ => false
  | .cons _ w rest, v => pyEqY v w || anyValPyEq rest v

/-- The body of the second if of check_application_model_info: when the
current key is "models", the pointer field model_data["model"] must
appear (Python in, so ==) among template_data["models"].values() —
values that include the sentinel "No_default_model" when a slot is
unset.  Crashes (none) when model_data has no "model" entry, when the
template has no "models" entry, or when its value is not a dict.  The
continuation cont is the traversal of the remaining keys and is reached
exactly where the Python loop keeps iterating. -/
def checkAMIModels (md : Yaml) (full : YFields) (k : String) (cont : Option Bool) : Option Bool :=
  if k = "models" then
    match getItemY md "model" with
    | none => none
    | some pm =>
      match full.lookupA "models" with
      | none => none
      | some (.mapping mvs) => if anyValPyEq mvs pm then cont else some false
      | some _ => none
  else cont

mutual
/-- setup.py check_application_model_info (lines 426-437): walks each
key of the provider record (template_data); a key also present in the
pointer record (model_data) whose values fail a recursive check makes
the result false unless that key is "models"; the "models" key is
handled by the membership rule of checkAMIModels instead of a key-wise
comparison.  Non-dict template nodes compare with Python ==. -/
def check_application_model_info (model_data template_data : Yaml) : Option Bool :=
  match template_data with
  | .mapping ts => checkAMIMap model_data ts ts
  | td => some (pyEqY model_data td)

def checkAMIMap (md : Yaml) (full : YFields) (l : YFields) : Option Bool :=
  match l with
  | .nil => some true
  | .cons k tv rest =>
    match keyInPy k md with
    | none => none
    | some kin =>
      if kin then
        match getItemY md k with
        | none => none
        | some sub =>
          match check_application_model_info sub tv with
          | none => none
          | some c =>
            if !c && decide (k ≠ "models")
            then some false
            else checkAMIModels md full k (checkAMIMap md full rest)
      else checkAMIModels md full k (checkAMIMap md full rest)
end

/-- The guard of setup.py setup_config (line 487) that decides whether
the active_model pointer must be (re)chosen: the provider name equal to
the sentinel "your_provider" short-circuits to true without ever
calling check_application_model_info; otherwise the pointer is compared
against config_data["api"][provider] and the negated result is used.
Any failed subscript is a crash (none). -/
def active_model_needs_setup (config_data : Yaml) : Option Bool :=
  match getItemY config_data "active_model" with
  | none => none
  | some pointer =>
    match getItemY pointer "provider" with
    | none => none
    | some (.s provider) =>
      if provider = "your_provider" then some true
      else
        match getItemY config_data "api" with
        | none => none
        | some api =>
          match getItemY api provider with
          | none => none
          | some providerRec =>
            match check_application_model_info pointer providerRec with
            | none => none
            | some c => some (!c)
    | some _ => none

/-- The list comprehension of get_available_models: the values of the
models dict that are != "No_default_model". -/
def filterValidModels : YFields → YElems
  | .nil => .nil
  | .cons _ v rest =>
    if pyEqY v (.s "No_default_model")
    then filterValidModels rest
    else .cons v (filterValidModels rest)

/-- The scrubbed provider descriptor stored in valid_api_info: a deep
copy of the provider record with provider and model forced to their
unassigned sentinels and the models dict deleted. -/
def scrubApiInfo (dl : YFields) : YFields :=
  ((dl.setA "provider" (.s "your_provider")).setA "model" (.s "No_default_model")).delA "models"

/-- setup.py get_available_models (lines 256-268): iterates the
providers of config["api"] in order; a provider whose api_key is truthy
and not "your_api_key_here" and whose endpoint is truthy and not
"https://default_endpoint.com" (evaluated with Python short-circuit:
a falsy or placeholder key is skipped before the endpoint is even read)
contributes its non-sentinel model values, provided at least one
exists, to available_models, together with a scrubbed descriptor in
valid_api_info.  A missing api_key/endpoint/models field, a non-dict
provider record or a non-dict models value raises, modelled as none. -/
def get_available_models : YFields → Option (List (String × YElems) × List (String × Yaml))
  | .nil => some ([], [])
  | .cons provider details rest =>
    match details with
    | .mapping dl =>
      match dl.lookupA "api_key" with
      | none => none
      | some ak =>
        if pyTruthy ak = false then get_available_models rest
        else if pyEqY ak (.s "your_api_key_here") = true then get_available_models rest
        else
          match dl.lookupA "endpoint" with
          | none => none
          | some ep =>
            if pyTruthy ep = false then get_available_models rest
            else if pyEqY ep (.s "https://default_endpoint.com") = true
            then get_available_models rest
            else
              match dl.lookupA "models" with
              | none => none
              | some (.mapping mvs) =>
                match get_available_models rest with
                | none => none
                | some (ams, infos) =>
                  if (filterValidModels mvs).isNilB = true
                  then some (ams, infos)
                  else some ((provider, filterValidModels mvs) :: ams,
                    (provider, Yaml.mapping (scrubApiInfo dl)) :: infos)
              | some _ => none
    | _ => none

/-! ## Interactive prompt loops of the navigator -/

/-- Python str.strip(): removes leading and trailing whitespace. -/
def pyStrip (s : String) : String :=
  String.mk (((s.data.dropWhile Char.isWhitespace).reverse.dropWhile Char.isWhitespace).reverse)

def toLowerChar (c : Char) : Char :=
  if 65 ≤ c.toNat ∧ c.toNat ≤ 90 then Char.ofNat (c.toNat + 32) else c

/-- Python str.lower() over the ASCII range the prompts compare with. -/
def pyLower (s : String) : String := String.mk (s.data.map toLowerChar)

def digitsVal (l : List Char) : Nat :=
  l.foldl (fun a c => a * 10 + (c.toNat - 48)) 0

/-- A character Python str.isdigit() accepts: the ASCII decimal digits
plus further Unicode digit characters; of the latter we model the
superscript digits (code points 185, 178, 179), which isdigit accepts
but int() rejects — the class that makes the two functions disagree. -/
def pyIsDigitChar (c : Char) : Bool :=
  c.isDigit || c = Char.ofNat 185 || c = Char.ofNat 178 || c = Char.ofNat 179

/-- Python s.isdigit() over the modelled character class. -/
def pyIsDigitStr (s : String) : Bool :=
  !s.data.isEmpty && s.data.all pyIsDigitChar

/-- Python int(s) applied by the numbered menus to a string that
already passed isdigit(): parses a run of decimal digits, and raises
ValueError (none) on an isdigit-true string containing a non-decimal
digit character such as a superscript.  In get_user_choice and the
list-index prompt of update_yaml_interactively that ValueError is
uncaught and crashes the session. -/
def pyIntOfDigits (s : String) : Option Nat :=
  if !s.data.isEmpty && s.data.all Char.isDigit then some (digitsVal s.data) else none

/-- Python int(s) on a stripped string: optional sign followed by at
least one decimal digit (underscore separators are not modelled). -/

def pyParseInt (str : String) : Option Int :=
  match str.data with
  | [] => none
  | '+' :: rest =>
    if rest ≠ [] ∧ rest.all Char.isDigit then some (digitsVal rest) else none
  | '-' :: rest =>
    if rest ≠ [] ∧ rest.all Char.isDigit then some (-(digitsVal rest : Int)) else none
  | l => if l.all Char.isDigit then some (digitsVal l) else none

/-- Splits at the first character satisfying p, if any. -/
def splitOnCharOnce (p : Char → Bool) : List Char → List Char × Option (List Char)
  | [] => ([], none)
  | a :: rest =>
    if p a then ([], some rest)
    else
      match splitOnCharOnce p rest with
      | (pre, suf) => (a :: pre, suf)

/-- Python float(s) on a stripped string, parsed to an exact rational:
optional sign, decimal digits with an optional point, optional decimal
exponent.  The special forms inf/nan and underscore separators are not
modelled; the exact-rational reading differs from IEEE float only below
the double-precision underflow threshold, which none of the verified
properties depends on. -/
def pyParseFloat (str : String) : Option Rat :=
  match str.data with
  | [] => none
  | l0 =>
    let sl := match l0 with
      | '+' :: r => (some (1 : Rat), r)
      | '-' :: r => (some (-1 : Rat), r)
      | _ => (some (1 : Rat), l0)
    match sl with
    | (some sign, l1) =>
      match splitOnCharOnce (fun c => c = 'e' ∨ c = 'E') l1 with
      | (mant, expPart) =>
        match splitOnCharOnce (fun c => c = '.') mant with
        | (ip, fpOpt) =>
          let fp := fpOpt.getD []
          if ip.all Char.isDigit ∧ fp.all Char.isDigit ∧ (ip ≠ [] ∨ fp ≠ []) then
            let base : Rat := (digitsVal (ip ++ fp) : Rat) / (10 : Rat) ^ fp.length
            match expPart with
            | none => some (sign * base)
            | some echars =>
              match pyParseInt (String.mk echars) with
              | some e =>
                some (sign * base *
                  (if 0 ≤ e then (10 : Rat) ^ e.toNat else 1 / (10 : Rat) ^ (-e).toNat))
              | none => none
          else none
    | (none, _) => none

/-- The coercion step of the new-value prompt of
update_yaml_interactively (lines 805-812): isinstance(template, int)
holds for int and bool templates (bool is an int subclass in Python)
and routes through int(), a float template routes through float(), any
other template leaves the typed string unchanged.  A parse failure is
the retryable ValueError. -/
def coerceInput (template : Yaml) (c : String) : Option Yaml :=
  match template with
  | .i _ => (pyParseInt c).map Yaml.i
  | .b _ => (pyParseInt c).map Yaml.i
  | .f _ => (pyParseFloat c).map Yaml.f
  | _ => some (.s c)

/-- Result signals of setup.py get_user_choice: the strings
"quit_all", "back", "reset", "quit", a selected option name, or the
Python None returned after the retry ceiling. -/
inductive NavSignal where
  | quitAll : NavSignal
  | back : NavSignal
  | reset : NavSignal
  | quitOne : NavSignal
  | sel : String → NavSignal
  | noneRes : NavSignal
deriving DecidableEq, Repr

/-- setup.py get_user_choice (lines 600-646), with the interactive
input stream as an explicit list (reading past its end is the EOFError
crash, modelled as none).  After 5 invalid attempts the while loop
falls through to its else and returns None (noneRes), not "back".  The
reset confirmation reads one further input: y confirms, anything else
(n or, after five silent re-checks of the same value, any other text)
returns "quit".  An input that passes isdigit() but that int() rejects
crashes with an uncaught ValueError (none), since the int call sits
outside any try block. -/
def get_user_choice (options : List String) (hasPath allowReset : Bool) :
    List String → Nat → Option NavSignal
  | inputs, attempt =>
    if attempt ≥ 5 then some .noneRes
    else
      match inputs with
      | [] => none
      | raw :: rest =>
        let c := pyStrip raw
        if pyLower c = "q" then some .quitAll
        else if pyLower c = "b" ∧ hasPath then some .back
        else if allowReset ∧ c = "0" then
          match rest with
          | [] => none
          | rd :: _ => if pyLower (pyStrip rd) = "y" then some .reset else some .quitOne
        else if pyIsDigitStr c = true then
          match pyIntOfDigits c with
          | some nn =>
            if 1 ≤ nn ∧ nn ≤ options.length
            then some (.sel (options.getD (nn - 1) ""))
            else get_user_choice options hasPath allowReset rest (attempt + 1)
          | none => none
        else get_user_choice options hasPath allowReset rest (attempt + 1)

/-- Result signals of the list branch of update_yaml_interactively. -/
inductive SeqPromptRes where
  | quitAll : SeqPromptRes
  | back : SeqPromptRes
  | descend : Nat → SeqPromptRes
deriving DecidableEq, Repr

/-- The list-index prompt of update_yaml_interactively (lines 732-772):
q quits, b goes back, a valid 1-based index descends into that element.
An invalid input increments the attempt counter; when the counter
reaches 5 the inner while loop ends and the outer loop merely issues
continue, which re-enters the same prompt with a fresh counter — this
prompt never gives up, it keeps consuming input until a recognised
token arrives or the input ends (EOFError, modelled as none).  As in
get_user_choice, an isdigit-true input that int() rejects raises an
uncaught ValueError (none). -/
def seq_index_prompt (len : Nat) : List String → Nat → Option SeqPromptRes
  | [], _ => none
  | raw :: rest, attempts =>
    let c := pyStrip raw
    if pyLower c = "q" then some .quitAll
    else if pyLower c = "b" then some .back
    else if pyIsDigitStr c = true then
      match pyIntOfDigits c with
      | some nn =>
        if 1 ≤ nn ∧ nn ≤ len then some (.descend (nn - 1))
        else seq_index_prompt len rest (if attempts + 1 < 5 then attempts + 1 else 0)
      | none => none
    else seq_index_prompt len rest (if attempts + 1 < 5 then attempts + 1 else 0)

inductive YnRes where
  | yes : YnRes
  | no : YnRes
  | backSig : YnRes
deriving DecidableEq, Repr

/-- The restore-default prompt of the leaf editor of
update_yaml_interactively (lines 785-798): y/n break out of the loop, b
returns "back", anything else retries; after 5 invalid attempts the
loop else returns "back".  Returns the chosen branch together with the
unconsumed input. -/
def leaf_restore_prompt : List String → Nat → Option (YnRes × List String)
  | inputs, attempts =>
    if attempts ≥ 5 then some (.backSig, inputs)
    else
      match inputs with
      | [] => none
      | raw :: rest =>
        let c := pyLower (pyStrip raw)
        if c = "y" then some (.yes, rest)
        else if c = "n" then some (.no, rest)
        else if c = "b" then some (.backSig, rest)
        else leaf_restore_prompt rest (attempts + 1)

inductive LeafRes where
  | backSig : LeafRes
  | val : Yaml → LeafRes
deriving DecidableEq, Repr

/-- The new-value prompt of the leaf editor of
update_yaml_interactively (lines 805-837): reads a stripped input,
coerces it to the type of the template value (retry on ValueError), and
accepts it only when truthy; for a model-slot leaf (parameter model set
to the provider name) the sentinel "No_default_model" and any value
already stored in config_data["api"][model]["models"] are further
retryable rejections.  Any ValueError, falsy coercion or rejection
costs one of the 5 attempts; exhausting them returns "back". -/
def leaf_value_loop (template : Yaml) (model : Option String) (config_data : Yaml) :
    List String → Nat → Option LeafRes
  | inputs, attempts =>
    if attempts ≥ 5 then some .backSig
    else
      match inputs with
      | [] => none
      | raw :: rest =>
        let c := pyStrip raw
        match coerceInput template c with
        | none => leaf_value_loop template model config_data rest (attempts + 1)
        | some v =>
          if pyTruthy v then
            match model with
            | some m =>
              if pyEqY v (.s "No_default_model")
              then leaf_value_loop template model config_data rest (attempts + 1)
              else
                match getItemY config_data "api" with
                | none => none
                | some api =>
                  match getItemY api m with
                  | none => none
                  | some prec =>
                    match getItemY prec "models" with
                    | none => none
                    | some (.mapping mvs) =>
                      if anyValPyEq mvs v
                      then leaf_value_loop template model config_data rest (attempts + 1)
                      else some (.val v)
                    | some _ => none
            | none => some (.val v)
          else leaf_value_loop template model config_data rest (attempts + 1)

/-- The whole leaf editor of update_yaml_interactively (lines 775-837):
show current and default value, run the restore-default prompt, then
either return the template default (y), run the new-value prompt (n),
or propagate "back".  The current value data is display-only. -/
def update_yaml_leaf_editor (data template : Yaml) (model : Option String)
    (config_data : Yaml) (inputs : List String) : Option LeafRes :=
  match data, leaf_restore_prompt inputs 0 with
  | _, none => none
  | _, some (.backSig, _) => some .backSig
  | _, some (.yes, _) => some (.val template)
  | _, some (.no, rest) => leaf_value_loop template model config_data rest 0

/-! ## Basic association-list lemmas -/

theorem lookupA_setA_self : ∀ (l : YFields) (k : String) (v : Yaml),
    (l.setA k v).lookupA k = some v
  | .nil, k, v => by simp [YFields.setA, YFields.lookupA]
  | .cons k1 v1 rest, k, v => by
    by_cases h : k1 = k <;>
      simp [YFields.setA, YFields.lookupA, h, lookupA_setA_self rest k v]

theorem lookupA_setA_ne : ∀ (l : YFields) (k : String) (v : Yaml) (k2 : String),
    k ≠ k2 → (l.setA k v).lookupA k2 = l.lookupA k2
  | .nil, k, v, k2, hne => by simp [YFields.setA, YFields.lookupA, hne]
  | .cons k1 v1 rest, k, v, k2, hne => by
    by_cases h : k1 = k
    · subst h
      simp [YFields.setA, YFields.lookupA, hne]
    · by_cases h2 : k1 = k2 <;>
        simp [YFields.setA, YFields.lookupA, h, h2, Ne.symm hne,
          lookupA_setA_ne rest k v k2 hne]

theorem setA_lookup_id : ∀ (l : YFields) (k : String) (v : Yaml),
    l.lookupA k = some v → l.setA k v = l
  | .nil, k, v, h => by simp [YFields.lookupA] at h
  | .cons k1 v1 rest, k, v, h => by
    by_cases heq : k1 = k
    · subst heq
      simp [YFields.lookupA] at h
      simp [YFields.setA, h]
    · simp [YFields.lookupA, heq] at h
      simp [YFields.setA, heq, setA_lookup_id rest k v h]

theorem hasK_setA : ∀ (l : YFields) (k : String) (v : Yaml) (k2 : String),
    (l.setA k v).hasK k2 = (l.hasK k2 || k == k2)
  | .nil, k, v, k2 => by simp [YFields.setA, YFields.hasK]
  | .cons k1 v1 rest, k, v, k2 => by
    by_cases h : k1 = k
    · subst h
      by_cases h2 : k1 == k2 <;> simp_all [YFields.setA, YFields.hasK]
    · simp [YFields.setA, YFields.hasK, h, hasK_setA rest k v k2]
      by_cases h2 : k1 == k2 <;> simp_all [Bool.or_assoc]

theorem lookupA_isSome_eq_hasK : ∀ (l : YFields) (k : String),
    (l.lookupA k).isSome = l.hasK k
  | .nil, k => by simp [YFields.lookupA, YFields.hasK]
  | .cons k1 v1 rest, k => by
    by_cases h : k1 = k <;>
      simp [YFields.lookupA, YFields.hasK, h, lookupA_isSome_eq_hasK rest k]

theorem hasK_false_lookupA_none (l : YFields) (k : String) (h : l.hasK k = false) :
    l.lookupA k = none := by
  have := lookupA_isSome_eq_hasK l k
  rw [h] at this
  cases hl : l.lookupA k
  · rfl
  · rw [hl] at this
    simp at this

theorem keysF_setA : ∀ (l : YFields) (k : String) (v : Yaml),
    (l.setA k v).keysF = if l.hasK k then l.keysF else l.keysF ++ [k]
  | .nil, k, v => by simp [YFields.setA, YFields.keysF, YFields.hasK]
  | .cons k1 v1 rest, k, v => by
    by_cases h : k1 = k
    · subst h
      simp [YFields.setA, YFields.keysF, YFields.hasK]
    · have hb : (k1 == k) = false := by simp [h]
      simp [YFields.setA, YFields.keysF, YFields.hasK, h, hb, keysF_setA rest k v]
      by_cases h2 : rest.hasK k <;> simp [h2]

theorem mem_keysF_iff_hasK : ∀ (l : YFields) (k : String),
    k ∈ l.keysF ↔ l.hasK k = true
  | .nil, k => by simp [YFields.keysF, YFields.hasK]
  | .cons k1 v1 rest, k => by
    by_cases h : k1 = k
    · subst h
      simp [YFields.keysF, YFields.hasK]
    · have hb : (k1 == k) = false := by simp [h]
      simp [YFields.keysF, YFields.hasK, hb, mem_keysF_iff_hasK rest k, Ne.symm h]

theorem YFields.append_nilF : ∀ (l : YFields), l.append .nil = l
  | .nil => rfl
  | .cons k v rest => by simp [YFields.append, append_nilF rest]

theorem YElems.append_nilE : ∀ (l : YElems), l.append .nil = l
  | .nil => rfl
  | .cons a rest => by simp [YElems.append, append_nilE rest]

theorem YElems.drop_nilE : ∀ (n : Nat), YElems.drop n .nil = .nil
  | 0 => rfl
  | _ + 1 => rfl

theorem YElems.drop_len_self : ∀ (l : YElems), YElems.drop l.length l = .nil
  | .nil => rfl
  | .cons a rest => by simp [YElems.length, YElems.drop, drop_len_self rest]

/-! ## Claim C2: the scalar rule -/

/-- Claim C2 (corrected): at a scalar node, an instance value that is
not Python-equal to the template value and is not None is preserved
unchanged in the merged document and becomes the retained entry; where
the two values are Python-equal nothing is retained (the merged node
takes the template representative).  A None instance value is the
exception forced by the counterexample: it is replaced by the template
value with nothing retained. -/
theorem C2_scalar_customization_preserved :
    (∀ e t, isScalarB t = true → isScalarB e = true → scalarPyEq e t = false →
      e ≠ Yaml.null → compare_and_update e t = (e, some e)) ∧
    (∀ e t, isScalarB t = true → scalarPyEq e t = true →
      compare_and_update e t = (t, none)) ∧
    (∀ t, isScalarB t = true →
      compare_and_update Yaml.null t = (t, none)) := by
  refine ⟨fun e t ht he hne hnn => ?_, fun e t ht he => ?_, fun t ht => ?_⟩
  · cases t <;> simp [isScalarB, isMappingB, isSeqB] at ht <;>
      simp [compare_and_update, hne, hnn]
  · cases t <;> simp [isScalarB, isMappingB, isSeqB] at ht <;>
      simp [compare_and_update, he]
  · cases t <;> simp [isScalarB, isMappingB, isSeqB] at ht <;>
      simp [compare_and_update]

/-- Witness for C2 at concrete scalars: instance "mine" against
template "default" is kept and retained; equal values retain nothing. -/
theorem C2_scalar_customization_preserved_witness :
    compare_and_update (Yaml.s "mine") (Yaml.s "default") =
      (Yaml.s "mine", some (Yaml.s "mine")) ∧
    compare_and_update (Yaml.i 3) (Yaml.i 3) = (Yaml.i 3, none) :=
  ⟨C2_scalar_customization_preserved.1 (Yaml.s "mine") (Yaml.s "default")
      (by decide) (by decide) (by decide) (by decide),
    C2_scalar_customization_preserved.2.1 (Yaml.i 3) (Yaml.i 3) (by decide) (by decide)⟩

/-- Counterexample to C2 as stated: at a scalar position where the
instance value is None and the template value is 7 (values differ), the
merged document takes the template value — the instance value is not
preserved — and nothing is retained. -/
theorem C2_cex_null_not_preserved :
    compare_and_update Yaml.null (Yaml.i 7) = (Yaml.i 7, none) ∧
    Yaml.null ≠ Yaml.i 7 := by decide

/-! ## Claim C10: container-type mismatch -/

/-- Claim C10 (confirmed): when the template node is a dict but the
instance node is not (or the template node is a list but the instance
node is not), the merged node is a deep copy of the template subtree
and the reported retained value is the empty container, which the
enclosing container filters out (keepRet), so the discarded instance
value never appears in the retained-value map. -/
theorem C10_type_mismatch_discards_instance :
    (∀ e ts, isMappingB e = false →
      compare_and_update e (.mapping ts) = (.mapping ts, some (.mapping .nil))) ∧
    (∀ e ts, isSeqB e = false →
      compare_and_update e (.seq ts) = (.seq ts, some (.seq .nil))) ∧
    keepRet (some (.mapping .nil)) = .nil ∧
    keepRet (some (.seq .nil)) = .nil := by
  refine ⟨fun e ts he => ?_, fun e ts he => ?_, rfl, rfl⟩
  · cases e <;> simp [isMappingB] at he <;> simp [compare_and_update]
  · cases e <;> simp [isSeqB] at he <;> simp [compare_and_update]

/-- Witness for C10: the scalar 5 against the dict template a: 1 is
replaced by the template and retains the empty dict, and against the
list template [1] is replaced retaining the empty list. -/
theorem C10_type_mismatch_discards_instance_witness :
    compare_and_update (Yaml.i 5) (.mapping (.cons "a" (Yaml.i 1) .nil)) =
      (.mapping (.cons "a" (Yaml.i 1) .nil), some (.mapping .nil)) ∧
    compare_and_update (Yaml.i 5) (.seq (.cons (Yaml.i 1) .nil)) =
      (.seq (.cons (Yaml.i 1) .nil), some (.seq .nil)) :=
  ⟨C10_type_mismatch_discards_instance.1 (Yaml.i 5) (.cons "a" (Yaml.i 1) .nil) (by decide),
    C10_type_mismatch_discards_instance.2.1 (Yaml.i 5) (.cons (Yaml.i 1) .nil) (by decide)⟩

/-! ## Claim C4: no write when a load fails -/

/-- Claim C4 (confirmed): sync_yaml_with_template loads both documents
before anything else; if either load fails the operation aborts with
the raised error and the file-system state is returned unchanged — no
partial write is observable. -/
theorem C4_sync_aborts_before_write :
    ∀ fs tf ef, load_yaml fs tf = none ∨ load_yaml fs ef = none →
      sync_yaml_with_template fs tf ef = (fs, none) := by
  intro fs tf ef h
  rcases h with h | h
  · simp [sync_yaml_with_template, h]
  · cases ht : load_yaml fs tf
    · simp [sync_yaml_with_template, ht]
    · simp [sync_yaml_with_template, ht, h]

/-- Witness for C4: on an empty file system every load fails and sync
returns the state unchanged with no result. -/
theorem C4_sync_aborts_before_write_witness :
    sync_yaml_with_template ⟨[]⟩ "config.yaml.template" "config.yaml" = (⟨[]⟩, none) :=
  C4_sync_aborts_before_write ⟨[]⟩ "config.yaml.template" "config.yaml"
    (Or.inl (by decide))

/-! ## Claim C1: counterexample to key dropping -/

/-- Counterexample to C1 as stated: merging the instance x: 1 with the
empty dict template keeps the key x — a key present in the instance but
absent from the template is not dropped, so the merged key-set differs
from the template key-set. -/
theorem C1_cex_extra_key_not_dropped :
    (compare_and_update (.mapping (.cons "x" (Yaml.i 1) .nil)) (.mapping .nil)).1 =
      .mapping (.cons "x" (Yaml.i 1) .nil) ∧
    YFields.keysF (.cons "x" (Yaml.i 1) .nil) ≠ YFields.keysF .nil := by decide

/-! ## Claim C7: sequence merging -/

theorem YElems.append_assocE : ∀ (a c d : YElems),
    (a.append c).append d = a.append (c.append d)
  | .nil, _, _ => rfl
  | .cons x rest, c, d => by simp [YElems.append, append_assocE rest c d]

/-- The positional part of the list rule: the first
min(len(existing), len(template)) merged elements. -/
def cauZipMerged : YElems → YElems → YElems
  | _, .nil => .nil
  | .nil, .cons _ _ => .nil
  | .cons e ex, .cons t ts => .cons (compare_and_update e t).1 (cauZipMerged ex ts)

/-- The positional part of the retained output of the list rule: the
kept retained values of the first min(len(existing), len(template))
positions, in order. -/
def cauZipRet : YElems → YElems → YElems
  | _, .nil => .nil
  | .nil, .cons _ _ => .nil
  | .cons e ex, .cons t ts =>
    (keepRet (compare_and_update e t).2).append (cauZipRet ex ts)

theorem cauSeq_decomp : ∀ (ex ts : YElems),
    cauSeq ex ts = ((cauZipMerged ex ts).append (YElems.drop ts.length ex), cauZipRet ex ts)
  | ex, .nil => by simp [cauSeq, cauZipMerged, cauZipRet, YElems.length, YElems.drop, YElems.append]
  | .nil, .cons t ts => by
    simp [cauSeq, cauZipMerged, cauZipRet, YElems.drop_nilE, YElems.append]
  | .cons e ex, .cons t ts => by
    simp [cauSeq, cauZipMerged, cauZipRet, YElems.length, YElems.drop, YElems.append,
      cauSeq_decomp ex ts]

theorem cauSeq_fst_drop : ∀ (ex ts : YElems),
    YElems.drop ts.length (cauSeq ex ts).1 = YElems.drop ts.length ex
  | ex, .nil => by simp [cauSeq, YElems.length, YElems.drop]
  | .nil, .cons t ts => by simp [cauSeq, YElems.drop_nilE]
  | .cons e ex, .cons t ts => by
    simp [cauSeq, YElems.length, YElems.drop, cauSeq_fst_drop ex ts]

/-- Claim C7 (confirmed): the list rule of compare_and_update recurses
positionally over the shorter of the two lengths (cauZipMerged /
cauZipRet); when the instance is longer its trailing elements (drop
len(template) of the instance) are preserved verbatim in the merged
document and appended as-is to the retained output; when the template
is longer the missing trailing elements (drop len(instance) of the
template) are deep-copied in from the template.  In particular, merging
instance [1, 2, 3] with template [0, 0] keeps [1, 2, 3] and the
retained output [1, 2, 3] includes the trailing 3. -/
theorem C7_sequence_positional_merge :
    (∀ ex ts, compare_and_update (.seq ex) (.seq ts) =
      (.seq ((cauZipMerged ex ts).append
          ((YElems.drop ts.length ex).append (YElems.drop ex.length ts))),
        if ((cauZipRet ex ts).append (YElems.drop ts.length ex)).isNilB then none
        else some (.seq ((cauZipRet ex ts).append (YElems.drop ts.length ex))))) ∧
    compare_and_update (.seq (.cons (.i 1) (.cons (.i 2) (.cons (.i 3) .nil))))
        (.seq (.cons (.i 0) (.cons (.i 0) .nil))) =
      (.seq (.cons (.i 1) (.cons (.i 2) (.cons (.i 3) .nil))),
        some (.seq (.cons (.i 1) (.cons (.i 2) (.cons (.i 3) .nil))))) := by
  constructor
  · intro ex ts
    have hd := cauSeq_decomp ex ts
    have hdrop := cauSeq_fst_drop ex ts
    rw [hd] at hdrop
    simp only [] at hdrop
    simp [compare_and_update, hd, hdrop, YElems.append_assocE]
  · decide

/-! ## Claim C1: key-set of a merged mapping node -/

theorem lookupA_cauMap_notin : ∀ (l ex : YFields) (k : String),
    l.hasK k = false → ((cauMap ex l).1).lookupA k = ex.lookupA k
  | .nil, ex, k, _ => rfl
  | .cons k1 tv rest, ex, k, h => by
    have h1 : (k1 == k) = false ∧ rest.hasK k = false := by
      constructor <;> by_contra hc <;> simp [YFields.hasK] at h <;> simp_all
    have hne : k1 ≠ k := by
      intro hh
      simp [hh] at h1
    cases hl : ex.lookupA k1 <;>
      simp [cauMap, hl, lookupA_cauMap_notin rest _ k h1.2, lookupA_setA_ne _ _ _ _ hne]

theorem keys_cauMap : ∀ (ts ex : YFields), nodupKeysF ts = true →
    ((cauMap ex ts).1).keysF = ex.keysF ++ ts.keysF.filter (fun k => !ex.hasK k)
  | .nil, ex, _ => by simp [cauMap, YFields.keysF]
  | .cons k tv rest, ex, h => by
    have hk : rest.hasK k = false ∧ nodupKeysF rest = true := by
      constructor <;> by_contra hc <;> simp [nodupKeysF] at h <;> simp_all
    have hcong : ∀ (w : Yaml), rest.keysF.filter (fun k2 => !(ex.setA k w).hasK k2) =
        rest.keysF.filter (fun k2 => !ex.hasK k2) := by
      intro w
      apply List.filter_congr
      intro x hx
      have hxk : k ≠ x := by
        intro he
        subst he
        exact absurd ((mem_keysF_iff_hasK rest k).1 hx) (by simp [hk.1])
      have hbx : (k == x) = false := by simp [hxk]
      simp [hasK_setA, hbx]
    cases hl : ex.lookupA k
    · have hke : ex.hasK k = false := by
        rw [← lookupA_isSome_eq_hasK, hl]
        rfl
      simp [cauMap, hl]
      rw [keys_cauMap rest _ hk.2, keysF_setA, hcong]
      simp [hke, YFields.keysF]
    · have hke : ex.hasK k = true := by
        rw [← lookupA_isSome_eq_hasK, hl]
        rfl
      simp [cauMap, hl]
      rw [keys_cauMap rest _ hk.2, keysF_setA, hcong]
      simp [hke, YFields.keysF]

theorem lookupA_cauMap_newkey : ∀ (ts ex : YFields) (k : String) (tv : Yaml),
    nodupKeysF ts = true → ex.hasK k = false → ts.lookupA k = some tv →
    ((cauMap ex ts).1).lookupA k = some tv
  | .nil, ex, k, tv, _, _, hlk => by simp [YFields.lookupA] at hlk
  | .cons k1 tv1 rest, ex, k, tv, hnd, hke, hlk => by
    have hk : rest.hasK k1 = false ∧ nodupKeysF rest = true := by
      constructor <;> by_contra hc <;> simp [nodupKeysF] at hnd <;> simp_all
    have hexl : ex.lookupA k = none := hasK_false_lookupA_none ex k hke
    by_cases heq : k1 = k
    · subst heq
      simp [YFields.lookupA] at hlk
      subst hlk
      simp [cauMap, hexl]
      rw [lookupA_cauMap_notin rest _ k1 hk.1, lookupA_setA_self]
    · have hrest : rest.lookupA k = some tv := by
        simpa [YFields.lookupA, heq] using hlk
      have hke2 : ∀ (w : Yaml), (ex.setA k1 w).hasK k = false := by
        intro w
        have hb : (k1 == k) = false := by simp [heq]
        simp [hasK_setA, hke, hb]
      cases hl : ex.lookupA k1 <;>
        simp [cauMap, hl, lookupA_cauMap_newkey rest _ k tv hk.2 (hke2 _) hrest]

/-- Claim C1 (corrected): at a mapping/mapping node the merged key list
is the instance keys (in order) followed by the template keys missing
from the instance (in template order): every key of the template absent
from the instance is inserted, bound to a deep copy of the template
value, but a key present in the instance and absent from the template
is NOT dropped — it survives the merge with its original value, so the
merged key-set is the union of the two key-sets rather than the
template key-set. -/
theorem C1_mapping_keyset_union :
    ∀ ex ts, nodupKeysF ts = true →
      (compare_and_update (.mapping ex) (.mapping ts)).1 = .mapping (cauMap ex ts).1 ∧
      ((cauMap ex ts).1).keysF = ex.keysF ++ ts.keysF.filter (fun k => !ex.hasK k) ∧
      (∀ k tv, ex.hasK k = false → ts.lookupA k = some tv →
        ((cauMap ex ts).1).lookupA k = some tv) ∧
      (∀ k, ts.hasK k = false → ((cauMap ex ts).1).lookupA k = ex.lookupA k) := by
  intro ex ts hnd
  refine ⟨by simp [compare_and_update], keys_cauMap ts ex hnd,
    fun k tv hke hlk => lookupA_cauMap_newkey ts ex k tv hnd hke hlk,
    fun k h => lookupA_cauMap_notin ts ex k h⟩

/-- Witness for C1 at a concrete pair: instance x: 1 merged with
template y: 2 keeps x and inserts y. -/
theorem C1_mapping_keyset_union_witness :
    ((cauMap (.cons "x" (Yaml.i 1) .nil) (.cons "y" (Yaml.i 2) .nil)).1).keysF =
        ["x"] ++ ["y"].filter (fun k => !(YFields.cons "x" (Yaml.i 1) YFields.nil).hasK k) ∧
      ((cauMap (.cons "x" (Yaml.i 1) .nil) (.cons "y" (Yaml.i 2) .nil)).1).lookupA "y" =
        some (Yaml.i 2) :=
  ⟨(C1_mapping_keyset_union (.cons "x" (Yaml.i 1) .nil)
      (.cons "y" (Yaml.i 2) .nil) (by decide)).2.1,
    (C1_mapping_keyset_union (.cons "x" (Yaml.i 1) .nil)
      (.cons "y" (Yaml.i 2) .nil) (by decide)).2.2.1 "y" (Yaml.i 2) (by decide) (by decide)⟩

/-! ## Claim C3: pointer consistency -/

theorem checkAMIMap_models_not_true : ∀ (l : YFields) (md : Yaml) (full mvs : YFields)
    (pm : Yaml), l.hasK "models" = true → full.lookupA "models" = some (.mapping mvs) →
    getItemY md "model" = some pm → anyValPyEq mvs pm = false →
    checkAMIMap md full l ≠ some true
  | .nil, md, full, mvs, pm, hmem, _, _, _ => by simp [YFields.hasK] at hmem
  | .cons k tv rest, md, full, mvs, pm, hmem, hfull, hpm, hany => by
    have hmodels : checkAMIModels md full k (checkAMIMap md full rest) ≠ some true := by
      by_cases hk : k = "models"
      · subst hk
        simp [checkAMIModels, hpm, hfull, hany]
      · have hrest : rest.hasK "models" = true := by
          have hb : (k == "models") = false := by simp [hk]
          simpa [YFields.hasK, hb] using hmem
        simpa [checkAMIModels, hk] using
          checkAMIMap_models_not_true rest md full mvs pm hrest hfull hpm hany
    cases hkin : keyInPy k md with
    | none => simp [checkAMIMap, hkin]
    | some kin =>
      cases kin with
      | false => simpa [checkAMIMap, hkin] using hmodels
      | true =>
        cases hgi : getItemY md k with
        | none => simp [checkAMIMap, hkin, hgi]
        | some sub =>
          cases hc : check_application_model_info sub tv with
          | none => simp [checkAMIMap, hkin, hgi, hc]
          | some c =>
            by_cases hcond : c = false ∧ ¬k = "models"
            · simp [checkAMIMap, hkin, hgi, hc, hcond]
            · rcases Bool.eq_false_or_eq_true c with hcc | hcc
              · subst hcc
                simpa [checkAMIMap, hkin, hgi, hc] using hmodels
              · have hk : k = "models" := by
                  by_contra hkk
                  exact hcond ⟨hcc, hkk⟩
                subst hk
                subst hcc
                simpa [checkAMIMap, hkin, hgi, hc] using hmodels

/-- Claim C3 (corrected): the models collection is indeed never
compared key-by-key — the pointer model value is instead tested for
membership — but the membership test runs over ALL model slot values of
the provider, the sentinel "No_default_model" included, so the check
can only be guaranteed to reject (never answer true) when the pointer
model is Python-equal to none of the slot values at all; a pointer
model equal to the sentinel passes when the provider has an unset slot
(see the counterexample).  A pointer that was never assigned (provider
name "your_provider") is judged in need of reselection by the caller
guard of setup_config, which short-circuits before
check_application_model_info is ever called. -/
theorem C3_pointer_consistency :
    (∀ md ts mvs pm, ts.lookupA "models" = some (.mapping mvs) →
      getItemY md "model" = some pm → anyValPyEq mvs pm = false →
      check_application_model_info md (.mapping ts) ≠ some true) ∧
    (∀ config_data pointer, getItemY config_data "active_model" = some pointer →
      getItemY pointer "provider" = some (.s "your_provider") →
      active_model_needs_setup config_data = some true) := by
  constructor
  · intro md ts mvs pm hlk hpm hany
    have hmem : ts.hasK "models" = true := by
      rw [← lookupA_isSome_eq_hasK, hlk]
      rfl
    simpa [check_application_model_info] using
      checkAMIMap_models_not_true ts md ts mvs pm hmem hlk hpm hany
  · intro config_data pointer h1 h2
    simp [active_model_needs_setup, h1, h2]

/-- Witness for C3: a pointer whose model zz matches no slot value of
a provider with slots m1 and the sentinel is never judged consistent,
and a pointer with the unassigned provider sentinel always needs
setup. -/
theorem C3_pointer_consistency_witness :
    check_application_model_info
        (.mapping (.cons "model" (Yaml.s "zz") .nil))
        (.mapping (.cons "models"
          (.mapping (.cons "model_1" (Yaml.s "m1")
            (.cons "model_2" (Yaml.s "No_default_model") .nil))) .nil)) ≠ some true ∧
      active_model_needs_setup
        (.mapping (.cons "active_model"
          (.mapping (.cons "provider" (Yaml.s "your_provider") .nil)) .nil)) = some true :=
  ⟨C3_pointer_consistency.1
      (.mapping (.cons "model" (Yaml.s "zz") .nil))
      (.cons "models" (.mapping (.cons "model_1" (Yaml.s "m1")
        (.cons "model_2" (Yaml.s "No_default_model") .nil))) .nil)
      (.cons "model_1" (Yaml.s "m1") (.cons "model_2" (Yaml.s "No_default_model") .nil))
      (Yaml.s "zz") (by decide) (by decide) (by decide),
    C3_pointer_consistency.2
      (.mapping (.cons "active_model"
        (.mapping (.cons "provider" (Yaml.s "your_provider") .nil)) .nil))
      (.mapping (.cons "provider" (Yaml.s "your_provider") .nil))
      (by decide) (by decide)⟩

/-- Counterexample to C3 as stated: a pointer whose model is the
sentinel "No_default_model" — which is NOT among the non-sentinel model
identifiers m1 of the provider — is nonetheless judged consistent
(true), because the membership test runs over all slot values including
the sentinel slot. -/
theorem C3_cex_sentinel_model_accepted :
    check_application_model_info
        (.mapping (.cons "provider" (Yaml.s "p")
          (.cons "model" (Yaml.s "No_default_model")
            (.cons "endpoint" (Yaml.s "e")
              (.cons "api_key" (Yaml.s "k") .nil)))))
        (.mapping (.cons "endpoint" (Yaml.s "e")
          (.cons "api_key" (Yaml.s "k")
            (.cons "models" (.mapping (.cons "model_1" (Yaml.s "m1")
              (.cons "model_2" (Yaml.s "No_default_model") .nil))) .nil)))) = some true ∧
      filterValidModels (.cons "model_1" (Yaml.s "m1")
          (.cons "model_2" (Yaml.s "No_default_model") .nil)) = .cons (Yaml.s "m1") .nil ∧
      seqContainsPy (.cons (Yaml.s "m1") .nil) (Yaml.s "No_default_model") = false := by
  decide

/-! ## Claim C5: provider usability -/

/-- The provider-record shape of the configuration data model (spec
section 6): a dict with api_key, endpoint, and a models dict.
get_available_models raises on provider records that reach its
condition without this shape. -/
def detailsWFB : Yaml → Bool
  | .mapping dl =>
    (dl.lookupA "api_key").isSome && (dl.lookupA "endpoint").isSome &&
      (match dl.lookupA "models" with
       | some (.mapping _) => true
       | _ => false)
  | _ => false

def apiWFB : YFields → Bool
  | .nil => true
  | .cons _ d rest => detailsWFB d && apiWFB rest

/-- The model slot dict of a provider record. -/
def mvsOf (dl : YFields) : YFields :=
  match dl.lookupA "models" with
  | some (.mapping mvs) => mvs
  | _ => .nil

/-- The usability test of the specification, read off the source
condition of get_available_models: truthy non-placeholder api_key,
truthy non-placeholder endpoint, and at least one non-sentinel model
slot value. -/
def provider_usable (dl : YFields) : Bool :=
  match dl.lookupA "api_key", dl.lookupA "endpoint", dl.lookupA "models" with
  | some ak, some ep, some (.mapping mvs) =>
    pyTruthy ak && !pyEqY ak (.s "your_api_key_here") && pyTruthy ep &&
      !pyEqY ep (.s "https://default_endpoint.com") && !(filterValidModels mvs).isNilB
  | _, _, _ => false

theorem gam_cons_eval (q : String) (dl rest : YFields)
    (hwf : detailsWFB (.mapping dl) = true) :
    get_available_models (.cons q (.mapping dl) rest) =
      if provider_usable dl = true then
        (get_available_models rest).map (fun out =>
          ((q, filterValidModels (mvsOf dl)) :: out.1,
            (q, Yaml.mapping (scrubApiInfo dl)) :: out.2))
      else get_available_models rest := by
  simp only [detailsWFB, Bool.and_eq_true, Option.isSome_iff_exists] at hwf
  obtain ⟨⟨⟨ak, hak⟩, ep, hep⟩, hm⟩ := hwf
  have hmv : ∃ mvs, dl.lookupA "models" = some (.mapping mvs) := by
    cases hmm : dl.lookupA "models" with
    | none => rw [hmm] at hm; simp at hm
    | some m =>
      cases m <;> rw [hmm] at hm <;> simp at hm
      exact ⟨_, rfl⟩
  obtain ⟨mvs, hmv⟩ := hmv
  by_cases c1 : pyTruthy ak = false <;>
    by_cases c2 : pyEqY ak (.s "your_api_key_here") = true <;>
    by_cases c3 : pyTruthy ep = false <;>
    by_cases c4 : pyEqY ep (.s "https://default_endpoint.com") = true <;>
    by_cases c5 : (filterValidModels mvs).isNilB = true <;>
    cases hg : get_available_models rest <;>
    simp [get_available_models, provider_usable, mvsOf, hak, hep, hmv,
      c1, c2, c3, c4, c5, hg,
      Bool.not_eq_false, Bool.not_eq_true]

theorem gam_cons_shape (q : String) (d : Yaml) (rest : YFields)
    (out : List (String × YElems) × List (String × Yaml))
    (h : get_available_models (.cons q d rest) = some out) :
    ∃ outR, get_available_models rest = some outR ∧
      (out = outR ∨ ∃ mv inf, out = ((q, mv) :: outR.1, (q, inf) :: outR.2)) := by
  cases d <;> simp only [get_available_models] at h <;>
    try exact absurd h (by simp)
  case mapping dl =>
    cases hak : dl.lookupA "api_key" with
    | none =>
      simp only [hak] at h
      exact absurd h (by simp)
    | some ak =>
      simp only [hak] at h
      by_cases c1 : pyTruthy ak = false
      · rw [if_pos c1] at h
        exact ⟨out, h, Or.inl rfl⟩
      · rw [if_neg c1] at h
        by_cases c2 : pyEqY ak (.s "your_api_key_here") = true
        · rw [if_pos c2] at h
          exact ⟨out, h, Or.inl rfl⟩
        · rw [if_neg c2] at h
          cases hep : dl.lookupA "endpoint" with
          | none =>
            simp only [hep] at h
            exact absurd h (by simp)
          | some ep =>
            simp only [hep] at h
            by_cases c3 : pyTruthy ep = false
            · rw [if_pos c3] at h
              exact ⟨out, h, Or.inl rfl⟩
            · rw [if_neg c3] at h
              by_cases c4 : pyEqY ep (.s "https://default_endpoint.com") = true
              · rw [if_pos c4] at h
                exact ⟨out, h, Or.inl rfl⟩
              · rw [if_neg c4] at h
                cases hmv : dl.lookupA "models" with
                | none =>
                  simp only [hmv] at h
                  exact absurd h (by simp)
                | some m =>
                  cases m with
                  | seq x =>
                    simp only [hmv] at h
                    exact absurd h (by simp)
                  | s x =>
                    simp only [hmv] at h
                    exact absurd h (by simp)
                  | i x =>
                    simp only [hmv] at h
                    exact absurd h (by simp)
                  | f x =>
                    simp only [hmv] at h
                    exact absurd h (by simp)
                  | b x =>
                    simp only [hmv] at h
                    exact absurd h (by simp)
                  | null =>
                    simp only [hmv] at h
                    exact absurd h (by simp)
                  | mapping mvs =>
                    simp only [hmv] at h
                    cases hg : get_available_models rest with
                    | none =>
                      simp only [hg] at h
                      exact absurd h (by simp)
                    | some outR =>
                      obtain ⟨ams, infos⟩ := outR
                      simp only [hg] at h
                      by_cases c5 : (filterValidModels mvs).isNilB = true
                      · rw [if_pos c5] at h
                        cases h
                        exact ⟨(ams, infos), rfl, Or.inl rfl⟩
                      · rw [if_neg c5] at h
                        cases h
                        exact ⟨(ams, infos), rfl, Or.inr ⟨_, _, rfl⟩⟩

theorem gam_mem_hasK : ∀ (api : YFields) (out : List (String × YElems) × List (String × Yaml))
    (p : String), get_available_models api = some out →
    p ∈ out.1.map Prod.fst → api.hasK p = true
  | .nil, out, p, h, hmem => by
    cases h
    simp at hmem
  | .cons q d rest, out, p, h, hmem => by
    obtain ⟨outR, hR, hshape⟩ := gam_cons_shape q d rest out h
    rcases hshape with rfl | ⟨mv, inf, rfl⟩
    · have := gam_mem_hasK rest out p hR hmem
      simp [YFields.hasK, this]
    · simp at hmem
      rcases hmem with rfl | hmem
      · simp [YFields.hasK]
      · have := gam_mem_hasK rest outR p hR (by simpa using hmem)
        simp [YFields.hasK, this]

theorem gam_cons_badkey (q : String) (dl rest : YFields) (ak : Yaml)
    (hak : dl.lookupA "api_key" = some ak)
    (hbad : pyTruthy ak = false ∨ pyEqY ak (.s "your_api_key_here") = true) :
    get_available_models (.cons q (.mapping dl) rest) = get_available_models rest := by
  rcases hbad with hb | hb
  · simp [get_available_models, hak, hb]
  · by_cases c1 : pyTruthy ak = false <;> simp [get_available_models, hak, hb, c1]

theorem gam_usable_iff : ∀ (api : YFields), apiWFB api = true → nodupKeysF api = true →
    ∃ out, get_available_models api = some out ∧
      ∀ p dl, api.lookupA p = some (.mapping dl) →
        (p ∈ out.1.map Prod.fst ↔ provider_usable dl = true)
  | .nil, _, _ => ⟨([], []), rfl, fun p dl h => by simp [YFields.lookupA] at h⟩
  | .cons q d rest, hwf, hnd => by
    have hwf2 : detailsWFB d = true ∧ apiWFB rest = true := by
      constructor <;> by_contra hc <;> simp [apiWFB] at hwf <;> simp_all
    have hnd2 : rest.hasK q = false ∧ nodupKeysF rest = true := by
      constructor <;> by_contra hc <;> simp [nodupKeysF] at hnd <;> simp_all
    obtain ⟨outR, hR, hmemR⟩ := gam_usable_iff rest hwf2.2 hnd2.2
    cases d with
    | seq x => simp [detailsWFB] at hwf2
    | s x => simp [detailsWFB] at hwf2
    | i x => simp [detailsWFB] at hwf2
    | f x => simp [detailsWFB] at hwf2
    | b x => simp [detailsWFB] at hwf2
    | null => simp [detailsWFB] at hwf2
    | mapping dl0 =>
      have heval := gam_cons_eval q dl0 rest hwf2.1
      by_cases hu : provider_usable dl0 = true
      · refine ⟨((q, filterValidModels (mvsOf dl0)) :: outR.1,
          (q, Yaml.mapping (scrubApiInfo dl0)) :: outR.2), by simp [heval, hu, hR], ?_⟩
        intro p dl hlk
        by_cases hp : q = p
        · subst hp
          simp [YFields.lookupA] at hlk
          cases hlk
          simpa using hu
        · have hlk2 : rest.lookupA p = some (.mapping dl) := by
            simpa [YFields.lookupA, hp] using hlk
          have := hmemR p dl hlk2
          simpa [Ne.symm hp] using this
      · refine ⟨outR, by simp [heval, hu, hR], ?_⟩
        intro p dl hlk
        by_cases hp : q = p
        · subst hp
          simp [YFields.lookupA] at hlk
          cases hlk
          constructor
          · intro hmem
            have := gam_mem_hasK rest outR q hR hmem
            rw [hnd2.1] at this
            cases this
          · intro hh
            exact absurd hh hu
        · have hlk2 : rest.lookupA p = some (.mapping dl) := by
            simpa [YFields.lookupA, hp] using hlk
          exact hmemR p dl hlk2

theorem gam_badkey_excluded :
    ∀ (api : YFields) (p : String) (dl : YFields) (ak : Yaml)
      (out : List (String × YElems) × List (String × Yaml)), nodupKeysF api = true →
      get_available_models api = some out →
      api.lookupA p = some (.mapping dl) → dl.lookupA "api_key" = some ak →
      (pyTruthy ak = false ∨ pyEqY ak (.s "your_api_key_here") = true) →
      p ∉ out.1.map Prod.fst
  | .nil, p, dl, ak, out, _, _, hlk => by simp [YFields.lookupA] at hlk
  | .cons q d rest, p, dl, ak, out, hnd, hgam, hlk => by
    intro hak hbad
    have hnd2 : rest.hasK q = false ∧ nodupKeysF rest = true := by
      constructor <;> by_contra hc <;> simp [nodupKeysF] at hnd <;> simp_all
    by_cases hp : q = p
    · subst hp
      simp [YFields.lookupA] at hlk
      cases hlk
      rw [gam_cons_badkey q dl rest ak hak hbad] at hgam
      intro hmem
      have := gam_mem_hasK rest out q hgam hmem
      rw [hnd2.1] at this
      cases this
    · have hlk2 : rest.lookupA p = some (.mapping dl) := by
        simpa [YFields.lookupA, hp] using hlk
      obtain ⟨outR, hR, hshape⟩ := gam_cons_shape q d rest out hgam
      rcases hshape with rfl | ⟨mv, inf, rfl⟩
      · exact gam_badkey_excluded rest p dl ak out hnd2.2 hR hlk2 hak hbad
      · intro hmem
        simp at hmem
        rcases hmem with rfl | hmem
        · exact hp rfl
        · exact gam_badkey_excluded rest p dl ak outR hnd2.2 hR hlk2 hak hbad
            (by simpa using hmem)

/-- Claim C5 (confirmed): over well-shaped provider records with
duplicate-free provider names, get_available_models lists a provider if
and only if its api_key is truthy and not the placeholder, its endpoint
is truthy and not the placeholder endpoint, and at least one model slot
holds a value other than "No_default_model"; and regardless of every
other field, a provider whose api_key is falsy (absent/empty) or equal
to the placeholder is never listed. -/
theorem C5_provider_usability :
    (∀ api, apiWFB api = true → nodupKeysF api = true →
      ∃ out, get_available_models api = some out ∧
        ∀ p dl, api.lookupA p = some (.mapping dl) →
          (p ∈ out.1.map Prod.fst ↔ provider_usable dl = true)) ∧
    (∀ api p dl ak out, nodupKeysF api = true →
      get_available_models api = some out →
      api.lookupA p = some (.mapping dl) → dl.lookupA "api_key" = some ak →
      (pyTruthy ak = false ∨ pyEqY ak (.s "your_api_key_here") = true) →
      p ∉ out.1.map Prod.fst) :=
  ⟨gam_usable_iff, gam_badkey_excluded⟩

/-- Witness for C5: in a two-provider configuration the fully
configured provider good is listed and the provider bad with the
placeholder api_key is not. -/
theorem C5_provider_usability_witness :
    (∃ out, get_available_models
        (.cons "good" (.mapping (.cons "api_key" (Yaml.s "k")
          (.cons "endpoint" (Yaml.s "https://api.example.com")
            (.cons "models" (.mapping (.cons "model_1" (Yaml.s "m1") .nil)) .nil))))
          (.cons "bad" (.mapping (.cons "api_key" (Yaml.s "your_api_key_here")
            (.cons "endpoint" (Yaml.s "https://api.example.com")
              (.cons "models" (.mapping (.cons "model_1" (Yaml.s "m2") .nil)) .nil)))) .nil))
        = some out ∧
      ∀ p dl, (YFields.cons "good" (.mapping (.cons "api_key" (Yaml.s "k")
          (.cons "endpoint" (Yaml.s "https://api.example.com")
            (.cons "models" (.mapping (.cons "model_1" (Yaml.s "m1") .nil)) .nil))))
          (.cons "bad" (.mapping (.cons "api_key" (Yaml.s "your_api_key_here")
            (.cons "endpoint" (Yaml.s "https://api.example.com")
              (.cons "models" (.mapping (.cons "model_1" (Yaml.s "m2") .nil)) .nil)))) .nil)).lookupA
            p = some (.mapping dl) →
          (p ∈ out.1.map Prod.fst ↔ provider_usable dl = true)) :=
  C5_provider_usability.1 _ (by decide) (by decide)

/-! ## Claims C8 and C9: prompt retry discipline and the leaf editor -/

/-- An input the restore-default prompt treats as invalid. -/
def invalidYn (s : String) : Prop :=
  pyLower (pyStrip s) ≠ "y" ∧ pyLower (pyStrip s) ≠ "n" ∧ pyLower (pyStrip s) ≠ "b"

instance (s : String) : Decidable (invalidYn s) := by
  unfold invalidYn
  infer_instance

/-- An input get_user_choice treats as a retryable invalid attempt,
whatever the option list: none of the quit/back/reset tokens, and
either not an isdigit string at all or a parsed number outside the
1..len(options) menu range.  An isdigit string that int() rejects is
deliberately excluded — that input crashes the prompt instead of
consuming an attempt (see guc_isdigit_int_crash). -/
def invalidGuc (options : List String) (hasPath allowReset : Bool) (s : String) : Bool :=
  decide (pyLower (pyStrip s) ≠ "q") &&
  decide (¬(pyLower (pyStrip s) = "b" ∧ hasPath = true)) &&
  decide (¬(allowReset = true ∧ pyStrip s = "0")) &&
  (if pyIsDigitStr (pyStrip s) = true then
    match pyIntOfDigits (pyStrip s) with
    | some n => decide (¬(1 ≤ n ∧ n ≤ options.length))
    | none => false
  else true)

/-- An input the list-index prompt treats as a retryable invalid
attempt, analogously: not q or b, and not an isdigit string except a
parsed number outside the 1..len menu range. -/
def invalidSeqIdx (len : Nat) (s : String) : Bool :=
  decide (pyLower (pyStrip s) ≠ "q") &&
  decide (pyLower (pyStrip s) ≠ "b") &&
  (if pyIsDigitStr (pyStrip s) = true then
    match pyIntOfDigits (pyStrip s) with
    | some n => decide (¬(1 ≤ n ∧ n ≤ len))
    | none => false
  else true)

/-- A single input the new-value prompt of the leaf editor rejects with
a retry, covering every rejection class of the loop body: a coercion
failure (ValueError), a falsy coerced value (blank string, 0, 0.0,
false), or — for a model-slot leaf — the sentinel "No_default_model"
or a duplicate of a model value already stored under
config_data["api"][model]["models"]. -/
def lvl_rejects (template : Yaml) (model : Option String) (cfg : Yaml) (s : String) : Bool :=
  match coerceInput template (pyStrip s) with
  | none => true
  | some v =>
    if pyTruthy v then
      match model with
      | some m =>
        pyEqY v (.s "No_default_model") ||
          (match getItemY cfg "api" with
           | some api =>
             match getItemY api m with
             | some prec =>
               match getItemY prec "models" with
               | some (.mapping mvs) => anyValPyEq mvs v
               | some _ => false
               | none => false
             | none => false
           | none => false)
      | none => false
    else true

theorem lrp_invalid_gives_back : ∀ (inputs : List String) (a : Nat),
    (∀ s ∈ inputs, invalidYn s) → 5 ≤ a + inputs.length →
    ∃ r, leaf_restore_prompt inputs a = some (.backSig, r)
  | [], a, _, hlen => by
    have ha : a ≥ 5 := by simpa using hlen
    exact ⟨[], by simp [leaf_restore_prompt, ha]⟩
  | raw :: rest, a, hinv, hlen => by
    by_cases ha : a ≥ 5
    · exact ⟨raw :: rest, by simp [leaf_restore_prompt, ha]⟩
    · have h0 := hinv raw (by simp)
      obtain ⟨r, hr⟩ := lrp_invalid_gives_back rest (a + 1)
        (fun s hs => hinv s (by simp [hs]))
        (by simp at hlen ⊢; omega)
      exact ⟨r, by simp [leaf_restore_prompt, ha, h0.1, h0.2.1, h0.2.2, hr]⟩

theorem lvl_reject_step (template : Yaml) (model : Option String) (cfg : Yaml)
    (s : String) (rest : List String) (a : Nat) (ha : ¬a ≥ 5)
    (hr : lvl_rejects template model cfg s = true) :
    leaf_value_loop template model cfg (s :: rest) a =
      leaf_value_loop template model cfg rest (a + 1) := by
  unfold lvl_rejects at hr
  cases hc : coerceInput template (pyStrip s) with
  | none => simp [leaf_value_loop, ha, hc]
  | some v =>
    simp only [hc] at hr
    by_cases ht : pyTruthy v = true
    · rw [if_pos ht] at hr
      cases model with
      | none => simp at hr
      | some m =>
        by_cases hs : pyEqY v (Yaml.s "No_default_model") = true
        · simp [leaf_value_loop, ha, hc, ht, hs]
        · have hsb : pyEqY v (Yaml.s "No_default_model") = false := by
            revert hs
            cases pyEqY v (Yaml.s "No_default_model") <;> simp
          simp only [hsb, Bool.false_or] at hr
          cases h1 : getItemY cfg "api" with
          | none =>
            simp only [h1] at hr
            cases hr
          | some api =>
            simp only [h1] at hr
            cases h2 : getItemY api m with
            | none =>
              simp only [h2] at hr
              cases hr
            | some prec =>
              simp only [h2] at hr
              cases h3 : getItemY prec "models" with
              | none =>
                simp only [h3] at hr
                cases hr
              | some mm =>
                cases mm with
                | mapping mvs =>
                  simp only [h3] at hr
                  simp [leaf_value_loop, ha, hc, ht, hsb, h1, h2, h3, hr]
                | seq x =>
                  simp only [h3] at hr
                  cases hr
                | s x =>
                  simp only [h3] at hr
                  cases hr
                | i x =>
                  simp only [h3] at hr
                  cases hr
                | f x =>
                  simp only [h3] at hr
                  cases hr
                | b x =>
                  simp only [h3] at hr
                  cases hr
                | null =>
                  simp only [h3] at hr
                  cases hr
    · have htf : pyTruthy v = false := by
        revert ht
        cases pyTruthy v <;> simp
      simp [leaf_value_loop, ha, hc, htf]

theorem lvl_invalid_gives_back : ∀ (inputs : List String) (template : Yaml)
    (model : Option String) (cfg : Yaml) (a : Nat),
    (∀ s ∈ inputs, lvl_rejects template model cfg s = true) → 5 ≤ a + inputs.length →
    leaf_value_loop template model cfg inputs a = some .backSig
  | [], template, model, cfg, a, _, hlen => by
    have ha : a ≥ 5 := by simpa using hlen
    simp [leaf_value_loop, ha]
  | raw :: rest, template, model, cfg, a, hinv, hlen => by
    by_cases ha : a ≥ 5
    · simp [leaf_value_loop, ha]
    · rw [lvl_reject_step template model cfg raw rest a ha (hinv raw (by simp))]
      exact lvl_invalid_gives_back rest template model cfg (a + 1)
        (fun s hs => hinv s (by simp [hs])) (by simp at hlen ⊢; omega)

theorem guc_invalid_gives_none : ∀ (inputs : List String) (options : List String)
    (hasPath allowReset : Bool) (a : Nat),
    (∀ s ∈ inputs, invalidGuc options hasPath allowReset s = true) →
    5 ≤ a + inputs.length →
    get_user_choice options hasPath allowReset inputs a = some .noneRes
  | [], options, hasPath, allowReset, a, _, hlen => by
    have ha : a ≥ 5 := by simpa using hlen
    simp [get_user_choice, ha]
  | raw :: rest, options, hasPath, allowReset, a, hinv, hlen => by
    by_cases ha : a ≥ 5
    · simp [get_user_choice, ha]
    · have h0 := hinv raw (by simp)
      simp only [invalidGuc, Bool.and_eq_true, decide_eq_true_eq] at h0
      obtain ⟨⟨⟨h1, h2⟩, h3⟩, h4⟩ := h0
      have hrec := guc_invalid_gives_none rest options hasPath allowReset (a + 1)
        (fun s hs => hinv s (by simp [hs]))
        (by simp at hlen ⊢; omega)
      by_cases hd : pyIsDigitStr (pyStrip raw) = true
      · rw [if_pos hd] at h4
        cases hp : pyIntOfDigits (pyStrip raw) with
        | none =>
          simp only [hp] at h4
          cases h4
        | some n =>
          simp only [hp, decide_eq_true_eq] at h4
          simp [get_user_choice, ha, h1, h2, h3, hd, hp, h4, hrec]
      · rw [if_neg hd] at h4
        simp [get_user_choice, ha, h1, h2, h3, hd, hrec]

theorem sip_invalid_never_back : ∀ (inputs : List String) (len : Nat) (a : Nat),
    (∀ s ∈ inputs, invalidSeqIdx len s = true) → seq_index_prompt len inputs a = none
  | [], len, a, _ => by simp [seq_index_prompt]
  | raw :: rest, len, a, hinv => by
    have h0 := hinv raw (by simp)
    simp only [invalidSeqIdx, Bool.and_eq_true, decide_eq_true_eq] at h0
    obtain ⟨⟨h1, h2⟩, h3⟩ := h0
    have hrec : ∀ a2, seq_index_prompt len rest a2 = none := fun a2 =>
      sip_invalid_never_back rest len a2 (fun s hs => hinv s (by simp [hs]))
    by_cases hd : pyIsDigitStr (pyStrip raw) = true
    · rw [if_pos hd] at h3
      cases hp : pyIntOfDigits (pyStrip raw) with
      | none =>
        simp only [hp] at h3
        cases h3
      | some n =>
        simp only [hp, decide_eq_true_eq] at h3
        simp [seq_index_prompt, h1, h2, hd, hp, h3, hrec]
    · rw [if_neg hd] at h3
      simp [seq_index_prompt, h1, h2, hd, hrec]

theorem guc_isdigit_int_crash (options : List String) (hasPath allowReset : Bool)
    (s : String) (rest : List String) (a : Nat) (ha : ¬a ≥ 5)
    (h1 : pyLower (pyStrip s) ≠ "q")
    (h2 : ¬(pyLower (pyStrip s) = "b" ∧ hasPath = true))
    (h3 : ¬(allowReset = true ∧ pyStrip s = "0"))
    (hd : pyIsDigitStr (pyStrip s) = true) (hp : pyIntOfDigits (pyStrip s) = none) :
    get_user_choice options hasPath allowReset (s :: rest) a = none := by
  simp [get_user_choice, ha, h1, h2, h3, hd, hp]

theorem sip_isdigit_int_crash (len : Nat) (s : String) (rest : List String) (a : Nat)
    (h1 : pyLower (pyStrip s) ≠ "q") (h2 : pyLower (pyStrip s) ≠ "b")
    (hd : pyIsDigitStr (pyStrip s) = true) (hp : pyIntOfDigits (pyStrip s) = none) :
    seq_index_prompt len (s :: rest) a = none := by
  simp [seq_index_prompt, h1, h2, hd, hp]

/-- Claim C8 (corrected): the retry discipline is not uniform.  The two
leaf-editor prompts do return a "back" signal after 5 invalid attempts
— the restore-default prompt on any stream of non-y/n/b inputs, the
new-value prompt on any stream of rejected inputs (coercion failures,
falsy values, and for model slots the sentinel and duplicate
rejections).  But the mapping field-selection prompt get_user_choice
returns the Python None give-up signal, not "back", on any stream of
invalid inputs (unrecognised tokens or out-of-range menu numbers); the
sequence-index prompt of update_yaml_interactively never gives up at
all — after 5 invalid attempts its outer loop re-enters it with a
fresh attempt counter, so an invalid streak keeps consuming input until
a recognised token arrives or input ends with a raised EOFError; and in
both numbered menus an input that passes isdigit() but that int()
cannot parse (such as a superscript digit) raises an uncaught
ValueError instead of counting as a retry. -/
theorem C8_prompt_retry_discipline :
    (∀ inputs a, (∀ s ∈ inputs, invalidYn s) → 5 ≤ a + inputs.length →
      ∃ r, leaf_restore_prompt inputs a = some (.backSig, r)) ∧
    (∀ inputs template model cfg a,
      (∀ s ∈ inputs, lvl_rejects template model cfg s = true) →
      5 ≤ a + inputs.length →
      leaf_value_loop template model cfg inputs a = some .backSig) ∧
    (∀ inputs options hasPath allowReset a,
      (∀ s ∈ inputs, invalidGuc options hasPath allowReset s = true) →
      5 ≤ a + inputs.length →
      get_user_choice options hasPath allowReset inputs a = some .noneRes) ∧
    (∀ inputs len a, (∀ s ∈ inputs, invalidSeqIdx len s = true) →
      seq_index_prompt len inputs a = none) ∧
    (∀ options hasPath allowReset s rest a, ¬a ≥ 5 →
      pyLower (pyStrip s) ≠ "q" → ¬(pyLower (pyStrip s) = "b" ∧ hasPath = true) →
      ¬(allowReset = true ∧ pyStrip s = "0") →
      pyIsDigitStr (pyStrip s) = true → pyIntOfDigits (pyStrip s) = none →
      get_user_choice options hasPath allowReset (s :: rest) a = none) ∧
    (∀ len s rest a, pyLower (pyStrip s) ≠ "q" → pyLower (pyStrip s) ≠ "b" →
      pyIsDigitStr (pyStrip s) = true → pyIntOfDigits (pyStrip s) = none →
      seq_index_prompt len (s :: rest) a = none) :=
  ⟨fun inputs a => lrp_invalid_gives_back inputs a,
    fun inputs template model cfg a hi hl =>
      lvl_invalid_gives_back inputs template model cfg a hi hl,
    fun inputs options hasPath allowReset a hi hl =>
      guc_invalid_gives_none inputs options hasPath allowReset a hi hl,
    fun inputs len a hi => sip_invalid_never_back inputs len a hi,
    fun options hasPath allowReset s rest a ha h1 h2 h3 hd hp =>
      guc_isdigit_int_crash options hasPath allowReset s rest a ha h1 h2 h3 hd hp,
    fun len s rest a h1 h2 hd hp => sip_isdigit_int_crash len s rest a h1 h2 hd hp⟩

/-- Witness for C8 at concrete invalid streaks of every rejection
class: junk tokens for the restore prompt; blank, sentinel and
duplicate model values for the value prompt; out-of-range menu numbers
for the selection and index prompts; and a superscript-digit input
crashing both numbered menus. -/
theorem C8_prompt_retry_discipline_witness :
    (∃ r, leaf_restore_prompt ["x", "x", "x", "x", "x"] 0 = some (.backSig, r)) ∧
    leaf_value_loop (Yaml.s "tpl") (some "p")
      (.mapping (.cons "api" (.mapping (.cons "p" (.mapping (.cons "models"
        (.mapping (.cons "model_1" (Yaml.s "m1") .nil)) .nil)) .nil)) .nil))
      ["", "No_default_model", "m1", "", "m1"] 0 = some .backSig ∧
    get_user_choice ["alpha"] true true ["9", "9", "9", "9", "9"] 0 = some .noneRes ∧
    seq_index_prompt 3 ["7", "7", "7", "7", "7", "7"] 0 = none ∧
    get_user_choice ["alpha"] true true ["²"] 0 = none ∧
    seq_index_prompt 2 ["²"] 0 = none :=
  ⟨C8_prompt_retry_discipline.1 ["x", "x", "x", "x", "x"] 0 (by decide) (by decide),
    C8_prompt_retry_discipline.2.1 ["", "No_default_model", "m1", "", "m1"]
      (Yaml.s "tpl") (some "p")
      (.mapping (.cons "api" (.mapping (.cons "p" (.mapping (.cons "models"
        (.mapping (.cons "model_1" (Yaml.s "m1") .nil)) .nil)) .nil)) .nil))
      0 (by decide) (by decide),
    C8_prompt_retry_discipline.2.2.1 ["9", "9", "9", "9", "9"] ["alpha"] true true 0
      (by decide) (by decide),
    C8_prompt_retry_discipline.2.2.2.1 ["7", "7", "7", "7", "7", "7"] 3 0 (by decide),
    C8_prompt_retry_discipline.2.2.2.2.1 ["alpha"] true true "²" [] 0 (by decide)
      (by decide) (by decide) (by decide) (by decide) (by decide),
    C8_prompt_retry_discipline.2.2.2.2.2 2 "²" [] 0 (by decide) (by decide)
      (by decide) (by decide)⟩

/-- Counterexample to C8 as stated: after 5 invalid attempts the field
selection prompt returns the None give-up signal, which is not the
"back" signal; and the sequence-index prompt fed exactly 5 invalid
inputs does not return anything — it re-prompts and crashes on the
exhausted input stream instead of returning "back". -/
theorem C8_cex_prompts_do_not_go_back :
    get_user_choice ["alpha"] true true ["z", "z", "z", "z", "z"] 0 = some .noneRes ∧
    NavSignal.noneRes ≠ NavSignal.back ∧
    seq_index_prompt 2 ["z", "z", "z", "z", "z"] 0 = none := by decide

theorem lvl_val_truthy : ∀ (inputs : List String) (template : Yaml)
    (model : Option String) (cfg : Yaml) (a : Nat) (v : Yaml),
    leaf_value_loop template model cfg inputs a = some (.val v) → pyTruthy v = true
  | [], template, model, cfg, a, v, h => by
    by_cases ha : a ≥ 5 <;> simp [leaf_value_loop, ha] at h
  | raw :: rest, template, model, cfg, a, v, h => by
    by_cases ha : a ≥ 5
    · simp [leaf_value_loop, ha] at h
    · simp only [leaf_value_loop, if_neg ha] at h
      cases hc : coerceInput template (pyStrip raw) with
      | none =>
        simp only [hc] at h
        exact lvl_val_truthy rest template model cfg (a + 1) v h
      | some v0 =>
        simp only [hc] at h
        by_cases ht : pyTruthy v0 = true
        · rw [if_pos ht] at h
          cases model with
          | none =>
            simp at h
            subst h
            exact ht
          | some m =>
            by_cases hs : pyEqY v0 (Yaml.s "No_default_model") = true
            · simp only [hs, if_true] at h
              exact lvl_val_truthy rest template (some m) cfg (a + 1) v h
            · simp only [hs, if_false, Bool.false_eq_true] at h
              cases h1 : getItemY cfg "api" with
              | none => simp [h1] at h
              | some api =>
                simp only [h1] at h
                cases h2 : getItemY api m with
                | none => simp [h2] at h
                | some prec =>
                  simp only [h2] at h
                  cases h3 : getItemY prec "models" with
                  | none => simp [h3] at h
                  | some mm =>
                    cases mm with
                    | seq x => simp [h3] at h
                    | s x => simp [h3] at h
                    | i x => simp [h3] at h
                    | f x => simp [h3] at h
                    | b x => simp [h3] at h
                    | null => simp [h3] at h
                    | mapping mvs =>
                      simp only [h3] at h
                      by_cases h4 : anyValPyEq mvs v0 = true
                      · rw [if_pos h4] at h
                        exact lvl_val_truthy rest template (some m) cfg (a + 1) v h
                      · rw [if_neg h4] at h
                        simp at h
                        subst h
                        exact ht
        · rw [if_neg ht] at h
          exact lvl_val_truthy rest template model cfg (a + 1) v h

/-- Claim C9 (corrected): in the new-value prompt of the leaf editor,
any typed input that coerces to the numeric value 0 (or 0.0) is falsy
and therefore treated exactly like blank input — rejected with one unit
of the 5-attempt budget consumed — so the typed-value path can never
return 0 or 0.0.  The exception forced by the counterexample: the
restore-default path returns the template value outright, so a template
whose own default is 0 can still put 0 into the leaf. -/
theorem C9_zero_input_rejected :
    (∀ template model cfg s rest a v, ¬a ≥ 5 →
      coerceInput template (pyStrip s) = some v → (v = Yaml.i 0 ∨ v = Yaml.f 0) →
      leaf_value_loop template model cfg (s :: rest) a =
        leaf_value_loop template model cfg rest (a + 1)) ∧
    (∀ inputs template model cfg a v,
      leaf_value_loop template model cfg inputs a = some (.val v) →
      pyTruthy v = true ∧ v ≠ Yaml.i 0 ∧ v ≠ Yaml.f 0) := by
  constructor
  · intro template model cfg s rest a v ha hc hv
    have ht : pyTruthy v = false := by
      rcases hv with rfl | rfl <;> simp [pyTruthy]
    simp [leaf_value_loop, ha, hc, ht]
  · intro inputs template model cfg a v h
    have ht := lvl_val_truthy inputs template model cfg a v h
    refine ⟨ht, ?_, ?_⟩ <;> rintro rfl <;> simp [pyTruthy] at ht

/-- Witness for C9: typing 0 against the int template 1 consumes an
attempt and is not stored; typing 7 is stored and 7 is nonzero. -/
theorem C9_zero_input_rejected_witness :
    leaf_value_loop (Yaml.i 1) none Yaml.null ["0", "x"] 0 =
      leaf_value_loop (Yaml.i 1) none Yaml.null ["x"] 1 ∧
    (pyTruthy (Yaml.i 7) = true ∧ Yaml.i 7 ≠ Yaml.i 0 ∧ Yaml.i 7 ≠ Yaml.f 0) :=
  ⟨C9_zero_input_rejected.1 (Yaml.i 1) none Yaml.null "0" ["x"] 0 (Yaml.i 0)
      (by decide) (by decide) (Or.inl rfl),
    C9_zero_input_rejected.2 ["7"] (Yaml.i 1) none Yaml.null 0 (Yaml.i 7) (by decide)⟩

/-- Counterexample to C9 as stated: with a numeric template whose
default value is 0, answering y to the restore-default prompt makes the
leaf editor return the value 0 for storage into the leaf. -/
theorem C9_cex_restore_default_stores_zero :
    update_yaml_leaf_editor (Yaml.i 5) (Yaml.i 0) none Yaml.null ["y"] =
      some (.val (Yaml.i 0)) := by decide

/-! ## Claim C6: idempotence of the merge -/

/-- Merging a document with itself changes nothing and retains
nothing. -/
def SelfP (t : Yaml) : Prop := compare_and_update t t = (t, none)

/-- Idempotence relative to a template: a second merge of an already
merged document changes nothing, keeps the same filtered retained
values, and reports either the same retained value or none. -/
def IdemP (t : Yaml) : Prop := ∀ e,
  (compare_and_update (compare_and_update e t).1 t).1 = (compare_and_update e t).1 ∧
  keepRet (compare_and_update (compare_and_update e t).1 t).2 =
    keepRet (compare_and_update e t).2 ∧
  ((compare_and_update (compare_and_update e t).1 t).2 = (compare_and_update e t).2 ∨
    (compare_and_update (compare_and_update e t).1 t).2 = none)

/-- The per-subtree facts threaded through the container cases. -/
def QItem (t : Yaml) : Prop :=
  compare_and_update t t = (t, none) ∧
  ∀ e, (compare_and_update (compare_and_update e t).1 t).1 = (compare_and_update e t).1 ∧
    keepRet (compare_and_update (compare_and_update e t).1 t).2 =
      keepRet (compare_and_update e t).2

def HoldsKV (P : String → Yaml → Prop) : YFields → Prop
  | .nil => True
  | .cons k v rest => P k v ∧ HoldsKV P rest

def HoldsE (P : Yaml → Prop) : YElems → Prop
  | .nil => True
  | .cons v rest => P v ∧ HoldsE P rest

theorem HoldsKV_imp {P Q : String → Yaml → Prop} : ∀ (l : YFields),
    HoldsKV P l → (∀ k v, P k v → Q k v) → HoldsKV Q l
  | .nil, _, _ => trivial
  | .cons k v rest, h, himp => ⟨himp k v h.1, HoldsKV_imp rest h.2 himp⟩

theorem HoldsKV_and {P Q : String → Yaml → Prop} : ∀ (l : YFields),
    HoldsKV P l → HoldsKV Q l → HoldsKV (fun k v => P k v ∧ Q k v) l
  | .nil, _, _ => trivial
  | .cons k v rest, h1, h2 => ⟨⟨h1.1, h2.1⟩, HoldsKV_and rest h1.2 h2.2⟩

theorem HoldsE_imp {P Q : Yaml → Prop} : ∀ (l : YElems),
    HoldsE P l → (∀ v, P v → Q v) → HoldsE Q l
  | .nil, _, _ => trivial
  | .cons v rest, h, himp => ⟨himp v h.1, HoldsE_imp rest h.2 himp⟩

theorem HoldsE_and {P Q : Yaml → Prop} : ∀ (l : YElems),
    HoldsE P l → HoldsE Q l → HoldsE (fun v => P v ∧ Q v) l
  | .nil, _, _ => trivial
  | .cons v rest, h1, h2 => ⟨⟨h1.1, h2.1⟩, HoldsE_and rest h1.2 h2.2⟩

theorem YwfF_holds : ∀ (l : YFields), YwfF l = true →
    HoldsKV (fun _ v => Ywf v = true) l
  | .nil, _ => trivial
  | .cons k v rest, h => by
    have h2 : Ywf v = true ∧ YwfF rest = true := by
      constructor <;> by_contra hc <;> simp [YwfF] at h <;> simp_all
    exact ⟨h2.1, YwfF_holds rest h2.2⟩

theorem YwfE_holds : ∀ (l : YElems), YwfE l = true →
    HoldsE (fun v => Ywf v = true) l
  | .nil, _ => trivial
  | .cons v rest, h => by
    have h2 : Ywf v = true ∧ YwfE rest = true := by
      constructor <;> by_contra hc <;> simp [YwfE] at h <;> simp_all
    exact ⟨h2.1, YwfE_holds rest h2.2⟩

theorem size_holdsF : ∀ (l : YFields), HoldsKV (fun _ v => sizeOf v < sizeOf l) l
  | .nil => trivial
  | .cons k v rest =>
    ⟨by simp; omega,
      HoldsKV_imp rest (size_holdsF rest) (fun k2 v2 h => by simp; omega)⟩

theorem size_holdsE : ∀ (l : YElems), HoldsE (fun v => sizeOf v < sizeOf l) l
  | .nil => trivial
  | .cons v rest =>
    ⟨by simp; omega,
      HoldsE_imp rest (size_holdsE rest) (fun v2 h => by simp; omega)⟩

theorem keepRetF_congr (k : String) (r1 r2 : Option Yaml)
    (h : keepRet r1 = keepRet r2) : keepRetF k r1 = keepRetF k r2 := by
  unfold keepRetF
  rw [h]

theorem mem_lookup_nodup : ∀ (ts : YFields), nodupKeysF ts = true →
    HoldsKV (fun k tv => ts.lookupA k = some tv) ts
  | .nil, _ => trivial
  | .cons k tv rest, h => by
    have h2 : rest.hasK k = false ∧ nodupKeysF rest = true := by
      constructor <;> by_contra hc <;> simp [nodupKeysF] at h <;> simp_all
    refine ⟨by simp [YFields.lookupA], ?_⟩
    refine HoldsKV_imp rest (mem_lookup_nodup rest h2.2) ?_
    intro k2 v2 hp
    have hk2 : rest.hasK k2 = true := by
      rw [← lookupA_isSome_eq_hasK, hp]
      rfl
    have hne : k ≠ k2 := by
      intro he
      rw [he] at h2
      rw [h2.1] at hk2
      cases hk2
    simp [YFields.lookupA, hne, hp]

theorem cauMap_self : ∀ (ts ex : YFields),
    HoldsKV (fun k tv => ex.lookupA k = some tv) ts →
    HoldsKV (fun _ tv => compare_and_update tv tv = (tv, none)) ts →
    cauMap ex ts = (ex, .nil)
  | .nil, ex, _, _ => rfl
  | .cons k tv rest, ex, hlk, hself => by
    have h1 : ex.lookupA k = some tv := hlk.1
    have hset : ex.setA k tv = ex := setA_lookup_id ex k tv h1
    simp [cauMap, h1, hself.1, hset, keepRetF, keepRet,
      cauMap_self rest ex hlk.2 hself.2, YFields.append]

theorem cauSeq_self : ∀ (ts : YElems),
    HoldsE (fun tv => compare_and_update tv tv = (tv, none)) ts →
    cauSeq ts ts = (ts, .nil)
  | .nil, _ => rfl
  | .cons tv rest, hself => by
    simp [cauSeq, hself.1, keepRet, cauSeq_self rest hself.2, YElems.append]

theorem map_second : ∀ (ts : YFields), nodupKeysF ts = true →
    HoldsKV (fun _ tv => QItem tv) ts →
    ∀ ex, cauMap (cauMap ex ts).1 ts = cauMap ex ts
  | .nil, _, _, ex => rfl
  | .cons k tv rest, hnd, hq, ex => by
    have hnd2 : rest.hasK k = false ∧ nodupKeysF rest = true := by
      constructor <;> by_contra hc <;> simp [nodupKeysF] at hnd <;> simp_all
    cases hl : ex.lookupA k with
    | some v =>
      have hu1 : (compare_and_update (compare_and_update v tv).1 tv).1 =
          (compare_and_update v tv).1 := (hq.1.2 v).1
      have hu2 : keepRet (compare_and_update (compare_and_update v tv).1 tv).2 =
          keepRet (compare_and_update v tv).2 := (hq.1.2 v).2
      have hlkF : ((cauMap (ex.setA k (compare_and_update v tv).1) rest).1).lookupA k =
          some (compare_and_update v tv).1 := by
        rw [lookupA_cauMap_notin rest _ k hnd2.1, lookupA_setA_self]
      have hsetF : ((cauMap (ex.setA k (compare_and_update v tv).1) rest).1).setA k
          (compare_and_update v tv).1 =
          (cauMap (ex.setA k (compare_and_update v tv).1) rest).1 :=
        setA_lookup_id _ _ _ hlkF
      have hrec := map_second rest hnd2.2 hq.2 (ex.setA k (compare_and_update v tv).1)
      simp only [cauMap, hl, hlkF, hu1, hsetF, hrec]
      rw [keepRetF_congr k _ _ hu2]
    | none =>
      have hself : compare_and_update tv tv = (tv, none) := hq.1.1
      have hlkF : ((cauMap (ex.setA k tv) rest).1).lookupA k = some tv := by
        rw [lookupA_cauMap_notin rest _ k hnd2.1, lookupA_setA_self]
      have hsetF : ((cauMap (ex.setA k tv) rest).1).setA k tv =
          (cauMap (ex.setA k tv) rest).1 := setA_lookup_id _ _ _ hlkF
      have hrec := map_second rest hnd2.2 hq.2 (ex.setA k tv)
      simp only [cauMap, hl, hlkF, hself, hsetF, hrec]
      simp [keepRetF, keepRet, YFields.append]

theorem seq_second : ∀ (ex ts : YElems), HoldsE QItem ts →
    cauSeq (((cauSeq ex ts).1).append (YElems.drop ex.length ts)) ts =
      (((cauSeq ex ts).1).append (YElems.drop ex.length ts), (cauSeq ex ts).2)
  | ex, .nil, _ => by
    simp [cauSeq, YElems.drop_nilE, YElems.append_nilE]
  | .nil, .cons t ts, hq => by
    have hself : HoldsE (fun tv => compare_and_update tv tv = (tv, none)) (.cons t ts) :=
      HoldsE_imp _ hq (fun v h => h.1)
    simp [cauSeq, YElems.length, YElems.drop, YElems.append,
      cauSeq_self (.cons t ts) hself, hself.1, cauSeq_self ts hself.2, keepRet]
  | .cons e ex, .cons t ts, hq => by
    have hu1 : (compare_and_update (compare_and_update e t).1 t).1 =
        (compare_and_update e t).1 := (hq.1.2 e).1
    have hu2 : keepRet (compare_and_update (compare_and_update e t).1 t).2 =
        keepRet (compare_and_update e t).2 := (hq.1.2 e).2
    have hrec := seq_second ex ts hq.2
    simp only [cauSeq, YElems.length, YElems.drop, YElems.append, hu1, hrec, hu2]

theorem drop_ts_M : ∀ (ex ts : YElems),
    YElems.drop ts.length (((cauSeq ex ts).1).append (YElems.drop ex.length ts)) =
      YElems.drop ts.length (cauSeq ex ts).1
  | ex, .nil => by
    simp [cauSeq, YElems.length, YElems.drop, YElems.drop_nilE, YElems.append_nilE]
  | .nil, .cons t ts => by
    simp [cauSeq, YElems.length, YElems.drop, YElems.append, YElems.drop_nilE,
      YElems.drop_len_self]
  | .cons e ex, .cons t ts => by
    simp [cauSeq, YElems.length, YElems.drop, YElems.append, drop_ts_M ex ts]

theorem YElems.append_lengthE : ∀ (a c : YElems),
    (a.append c).length = a.length + c.length
  | .nil, c => by simp [YElems.append, YElems.length]
  | .cons x rest, c => by
    simp [YElems.append, YElems.length, append_lengthE rest c]
    omega

theorem YElems.drop_lengthE : ∀ (n : Nat) (l : YElems),
    (YElems.drop n l).length = l.length - n
  | 0, l => by simp [YElems.drop]
  | n + 1, .nil => by simp [YElems.drop, YElems.length]
  | n + 1, .cons x rest => by
    simp [YElems.drop, YElems.length, drop_lengthE n rest]

theorem cauSeq_fst_length : ∀ (ex ts : YElems), ((cauSeq ex ts).1).length = ex.length
  | ex, .nil => by simp [cauSeq]
  | .nil, .cons t ts => by simp [cauSeq]
  | .cons e ex, .cons t ts => by
    simp [cauSeq, YElems.length, cauSeq_fst_length ex ts]

theorem YElems.drop_ge_nil : ∀ (n : Nat) (l : YElems), l.length ≤ n →
    YElems.drop n l = .nil
  | n, .nil, _ => YElems.drop_nilE n
  | 0, .cons x rest, h => by simp [YElems.length] at h
  | n + 1, .cons x rest, h => by
    simp only [YElems.drop]
    exact drop_ge_nil n rest (by simp [YElems.length] at h; omega)

theorem cau_scalar_eq : ∀ (t e : Yaml), isScalarB t = true →
    compare_and_update e t =
      if (scalarPyEq e t || decide (e = Yaml.null)) = true
      then (t, none) else (e, some e) := by
  intro t e ht
  cases t <;> simp [isScalarB, isMappingB, isSeqB] at ht <;> rfl

theorem scalar_refl : ∀ (t : Yaml), isScalarB t = true → scalarPyEq t t = true := by
  intro t ht
  cases t <;> simp [isScalarB, isMappingB, isSeqB] at ht <;> simp [scalarPyEq]

theorem scalar_selfP (t : Yaml) (ht : isScalarB t = true) : SelfP t := by
  unfold SelfP
  rw [cau_scalar_eq t t ht]
  simp [scalar_refl t ht]

theorem scalar_idemP (t : Yaml) (ht : isScalarB t = true) : IdemP t := by
  intro e
  have hs : compare_and_update t t = (t, none) := scalar_selfP t ht
  by_cases hcond : (scalarPyEq e t || decide (e = Yaml.null)) = true
  · rw [cau_scalar_eq t e ht, if_pos hcond]
    exact ⟨by simp [hs], by simp [hs], Or.inl (by simp [hs])⟩
  · have hp : compare_and_update e t = (e, some e) := by
      rw [cau_scalar_eq t e ht, if_neg hcond]
    refine ⟨?_, ?_, Or.inl ?_⟩ <;> simp [hp]

theorem cau_map_mismatch (e : Yaml) (ts : YFields) (he : isMappingB e = false) :
    compare_and_update e (.mapping ts) = (.mapping ts, some (.mapping .nil)) := by
  cases e <;> simp [isMappingB] at he <;> simp [compare_and_update]

theorem cau_seq_mismatch (e : Yaml) (ts : YElems) (he : isSeqB e = false) :
    compare_and_update e (.seq ts) = (.seq ts, some (.seq .nil)) := by
  cases e <;> simp [isSeqB] at he <;> simp [compare_and_update]

theorem cau_selfP_idemP : ∀ (n : Nat) (t : Yaml), sizeOf t < n → Ywf t = true →
    SelfP t ∧ IdemP t
  | 0, t, h, _ => absurd h (by omega)
  | n + 1, t, hsz, hwf => by
    cases t with
    | s a => exact ⟨scalar_selfP _ rfl, scalar_idemP _ rfl⟩
    | i a => exact ⟨scalar_selfP _ rfl, scalar_idemP _ rfl⟩
    | f a => exact ⟨scalar_selfP _ rfl, scalar_idemP _ rfl⟩
    | b a => exact ⟨scalar_selfP _ rfl, scalar_idemP _ rfl⟩
    | null => exact ⟨scalar_selfP _ rfl, scalar_idemP _ rfl⟩
    | mapping ts =>
      have hnd : nodupKeysF ts = true ∧ YwfF ts = true := by
        constructor <;> by_contra hc <;> simp [Ywf] at hwf <;> simp_all
      have hcomb := HoldsKV_and ts (YwfF_holds ts hnd.2) (size_holdsF ts)
      have hq : HoldsKV (fun _ tv => QItem tv) ts := by
        refine HoldsKV_imp ts hcomb ?_
        intro k v hv
        have hsts : sizeOf (Yaml.mapping ts) = 1 + sizeOf ts := by simp
        have hsv : sizeOf v < n := by omega
        have hrec := cau_selfP_idemP n v hsv hv.1
        exact ⟨hrec.1, fun e => ⟨(hrec.2 e).1, (hrec.2 e).2.1⟩⟩
      have hself : compare_and_update (.mapping ts) (.mapping ts) =
          (.mapping ts, none) := by
        have hlk := mem_lookup_nodup ts hnd.1
        have hselfs : HoldsKV (fun _ tv => compare_and_update tv tv = (tv, none)) ts :=
          HoldsKV_imp ts hq (fun k v hv => hv.1)
        simp [compare_and_update, cauMap_self ts ts hlk hselfs, YFields.isNilB]
      refine ⟨hself, ?_⟩
      intro e
      cases he : isMappingB e with
      | true =>
        cases e <;> simp [isMappingB] at he
        case mapping ex =>
          have h2 := map_second ts hnd.1 hq ex
          refine ⟨?_, ?_, Or.inl ?_⟩ <;> simp [compare_and_update, h2]
      | false =>
        have hp := cau_map_mismatch e ts he
        refine ⟨?_, ?_, Or.inr ?_⟩ <;> simp [hp, hself, keepRet]
    | seq ts =>
      have hwfE : YwfE ts = true := by simpa [Ywf] using hwf
      have hcomb := HoldsE_and ts (YwfE_holds ts hwfE) (size_holdsE ts)
      have hq : HoldsE QItem ts := by
        refine HoldsE_imp ts hcomb ?_
        intro v hv
        have hsts : sizeOf (Yaml.seq ts) = 1 + sizeOf ts := by simp
        have hsv : sizeOf v < n := by omega
        have hrec := cau_selfP_idemP n v hsv hv.1
        exact ⟨hrec.1, fun e => ⟨(hrec.2 e).1, (hrec.2 e).2.1⟩⟩
      have hselfs : HoldsE (fun tv => compare_and_update tv tv = (tv, none)) ts :=
        HoldsE_imp ts hq (fun v hv => hv.1)
      have hcs := cauSeq_self ts hselfs
      have hself : compare_and_update (.seq ts) (.seq ts) = (.seq ts, none) := by
        simp [compare_and_update, hcs, YElems.drop_len_self, YElems.append_nilE,
          YElems.isNilB]
      refine ⟨hself, ?_⟩
      intro e
      cases he : isSeqB e with
      | true =>
        cases e <;> simp [isSeqB] at he
        case seq ex =>
          have hsec := seq_second ex ts hq
          have hdM := drop_ts_M ex ts
          have hlenM : ts.length ≤
              (((cauSeq ex ts).1).append (YElems.drop ex.length ts)).length := by
            rw [YElems.append_lengthE, cauSeq_fst_length, YElems.drop_lengthE]
            omega
          have hdrop2 : YElems.drop
              ((((cauSeq ex ts).1).append (YElems.drop ex.length ts)).length) ts =
              .nil := by
            refine YElems.drop_ge_nil _ ts ?_
            exact hlenM
          refine ⟨?_, ?_, Or.inl ?_⟩ <;>
            simp [compare_and_update, hsec, hdM, hdrop2, YElems.append_nilE]
      | false =>
        have hp := cau_seq_mismatch e ts he
        refine ⟨?_, ?_, Or.inr ?_⟩ <;> simp [hp, hself, keepRet]

/-- Claim C6 (confirmed): for every instance I and every well-formed
template T (no duplicate dict keys, which every loaded YAML document
satisfies), running compare_and_update a second time on the result of
the first merge produces the identical document, and reports a
retained-value output that is either identical to the first run or
empty (None). -/
theorem C6_merge_idempotent :
    ∀ I T, Ywf T = true →
      (compare_and_update (compare_and_update I T).1 T).1 =
        (compare_and_update I T).1 ∧
      ((compare_and_update (compare_and_update I T).1 T).2 =
          (compare_and_update I T).2 ∨
        (compare_and_update (compare_and_update I T).1 T).2 = none) := by
  intro I T hwf
  have h := (cau_selfP_idemP (sizeOf T + 1) T (by omega) hwf).2 I
  exact ⟨h.1, h.2.2⟩

/-- Witness for C6 at a concrete customized instance. -/
theorem C6_merge_idempotent_witness :
    (compare_and_update
        (compare_and_update (.mapping (.cons "a" (Yaml.i 2) .nil))
          (.mapping (.cons "a" (Yaml.i 1) .nil))).1
        (.mapping (.cons "a" (Yaml.i 1) .nil))).1 =
      (compare_and_update (.mapping (.cons "a" (Yaml.i 2) .nil))
        (.mapping (.cons "a" (Yaml.i 1) .nil))).1 ∧
    ((compare_and_update
        (compare_and_update (.mapping (.cons "a" (Yaml.i 2) .nil))
          (.mapping (.cons "a" (Yaml.i 1) .nil))).1
        (.mapping (.cons "a" (Yaml.i 1) .nil))).2 =
      (compare_and_update (.mapping (.cons "a" (Yaml.i 2) .nil))
        (.mapping (.cons "a" (Yaml.i 1) .nil))).2 ∨
      (compare_and_update
        (compare_and_update (.mapping (.cons "a" (Yaml.i 2) .nil))
          (.mapping (.cons "a" (Yaml.i 1) .nil))).1
        (.mapping (.cons "a" (Yaml.i 1) .nil))).2 = none) :=
  C6_merge_idempotent (.mapping (.cons "a" (Yaml.i 2) .nil))
    (.mapping (.cons "a" (Yaml.i 1) .nil)) (by decide)
